import Mathlib

/-!
Verification development for the proxy-subscription generator
(src/scripts/generate_subscriptions.py).

The script is embedded shallowly: Python strings are modelled as
`List Char`, Python values (the JSON-like dictionaries the script
builds) as the inductive type `Value` below, and every function of the
script that the claims touch is translated into an executable Lean
definition carrying the same name where Lean allows it.
-/

namespace Subgen

/-- The JSON-like values manipulated by the script: Python `None`,
`str`, `int`, `bool`, `list` and `dict` (a `dict` is modelled as an
association list in insertion order, which is how Python dictionaries
iterate). -/
inductive Value where
  | vnull : Value
  | vstr  : String → Value
  | vint  : Int → Value
  | vbool : Bool → Value
  | vlist : List Value → Value
  | vdict : List (String × Value) → Value
  deriving Repr

open Value

/-- Python truthiness for the values above: `None`, `''`, `0`, `False`,
`[]` and the empty dict are falsy, everything else is truthy. -/
def truthy : Value → Bool
  | vnull => false
  | vstr s => !(s == "")
  | vint n => !(n == 0)
  | vbool b => b
  | vlist xs => !xs.isEmpty
  | vdict kvs => !kvs.isEmpty

/-- Python `x is None` on our values. -/
def isNullV : Value → Bool
  | vnull => true
  | _ => false

mutual

/-- The clean_config pass of the script: on a dict, rebuild it keeping only the
entries `cleanVal` keeps; any non-dict value is returned unchanged. -/
def clean_config : Value → Value
  | vdict kvs => vdict (cleanEntries kvs)
  | v => v

/-- One pass over the entries of a dict, dropping the entries whose
value is cleaned away. -/
def cleanEntries : List (String × Value) → List (String × Value)
  | [] => []
  | (k, v) :: rest =>
    match cleanVal v with
    | some v' => (k, v') :: cleanEntries rest
    | none => cleanEntries rest

/-- The per-entry logic of `clean_config`: `None` and `''` are dropped,
empty lists/dicts are dropped, dict values are cleaned recursively and
kept only when the result is truthy (non-empty), list values keep every
item whose cleaning is not `None` and are kept only when non-empty;
every other scalar is kept as is. -/
def cleanVal : Value → Option Value
  | vnull => none
  | vstr s => if s == "" then none else some (vstr s)
  | vint n => some (vint n)
  | vbool b => some (vbool b)
  | vlist xs =>
    let c := cleanList xs
    if c.isEmpty then none else some (vlist c)
  | vdict kvs =>
    let c := cleanEntries kvs
    if c.isEmpty then none else some (vdict c)

/-- The list branch of `clean_config`: each item is cleaned with
`clean_config` and kept unless the result is `None` (which only happens
for a `None` item, since `clean_config` maps every other value to a
non-`None` value). -/
def cleanList : List Value → List Value
  | [] => []
  | x :: xs =>
    let c := clean_config x
    if isNullV c then cleanList xs else c :: cleanList xs

end

/-- Python `dict.__getitem__` as used through `.get`: first entry with
the given key (the dicts the script builds have no duplicate keys). -/
def lookupKey (k : String) : List (String × Value) → Option Value
  | [] => none
  | (k', v) :: rest => if k' == k then some v else lookupKey k rest

/-- Dictionary lookup on a `Value` (non-dicts have no keys). -/
def getKey (v : Value) (k : String) : Option Value :=
  match v with
  | vdict kvs => lookupKey k kvs
  | _ => none

/-- Python `d.get(k, default)`. -/
def getD (v : Value) (k : String) (dflt : Value) : Value :=
  (getKey v k).getD dflt

/-! ## String helpers (Python str operations on `List Char`) -/

/-- The whitespace characters Python's str.strip removes (the ASCII
ones; the script only strips URIs and base64 text, which contain no
exotic Unicode spaces). -/
def isWs (c : Char) : Bool :=
  c == ' ' || c == '\t' || c == '\n' || c == '\r' || c == '\x0b' || c == '\x0c'

/-- Python s.strip(): drop whitespace from both ends. -/
def pyStrip (l : List Char) : List Char :=
  ((l.dropWhile isWs).reverse.dropWhile isWs).reverse

/-- Python s.split(sep, 1) for a one-character separator, given as the
pair around the first occurrence; `none` when the separator is absent
(the case Python reports as a one-element list). -/
def splitOnce (sep : Char) : List Char → Option (List Char × List Char)
  | [] => none
  | c :: rest =>
    if c == sep then some ([], rest)
    else (splitOnce sep rest).map (fun p => (c :: p.1, p.2))

/-- Worker of `pySplit`, accumulating the current chunk reversed. -/
def pySplitGo (sep : Char) : List Char → List Char → List (List Char)
  | [], cur => [cur.reverse]
  | c :: rest, cur =>
    if c == sep then cur.reverse :: pySplitGo sep rest []
    else pySplitGo sep rest (c :: cur)

/-- Python s.split(sep) (full split) for a one-character separator. -/
def pySplit (sep : Char) (l : List Char) : List (List Char) := pySplitGo sep l []

/-- Python sep.join(parts) for a one-character separator. -/
def joinWith (sep : Char) : List (List Char) → List Char
  | [] => []
  | [x] => x
  | x :: xs => x ++ sep :: joinWith sep xs

/-- Python s.startswith(p). -/
def startsWithL : List Char → List Char → Bool
  | [], _ => true
  | _ :: _, [] => false
  | p :: ps, c :: cs => p == c && startsWithL ps cs

/-- Python substring containment, `sub in s`. -/
def hasSub (sub : List Char) : List Char → Bool
  | [] => startsWithL sub []
  | c :: rest => startsWithL sub (c :: rest) || hasSub sub rest

/-- Value of a hexadecimal digit, computed from the code point: digits
occupy 48-57, uppercase letters 65-70 (value = code − 55), lowercase
letters 97-102 (value = code − 87). -/
def hexDigit (c : Char) : Option Nat :=
  let n := c.toNat
  if n < 48 then none
  else if n ≤ 57 then some (n - 48)
  else if 65 ≤ n && n ≤ 70 then some (n - 55)
  else if 97 ≤ n && n ≤ 102 then some (n - 87)
  else none

/-! ## UTF-8 decoding (bytes.decode with errors='ignore' / 'replace') -/

/-- Is `b` a UTF-8 continuation byte (0x80-0xBF)? -/
def isCont (b : Nat) : Bool := 0x80 ≤ b && b ≤ 0xBF

/-- Range restriction on the second byte of a multi-byte UTF-8
sequence (rules out overlong encodings, surrogates and values past
U+10FFFF). -/
def utf8SecondOk (b b2 : Nat) : Bool :=
  if b == 0xE0 then 0xA0 ≤ b2 && b2 ≤ 0xBF
  else if b == 0xED then 0x80 ≤ b2 && b2 ≤ 0x9F
  else if b == 0xF0 then 0x90 ≤ b2 && b2 ≤ 0xBF
  else if b == 0xF4 then 0x80 ≤ b2 && b2 ≤ 0x8F
  else isCont b2

/-- Decode a byte list as UTF-8.  `repl = some c` models Python's
errors='replace' (an ill-formed byte contributes `c`), `repl = none`
models errors='ignore' (ill-formed bytes are skipped). -/
def utf8Decode (repl : Option Char) : List Nat → List Char
  | [] => []
  | b :: rest =>
    if b < 0x80 then Char.ofNat b :: utf8Decode repl rest
    else if 0xC2 ≤ b && b ≤ 0xDF then
      match rest with
      | b2 :: rest2 =>
        if isCont b2 then
          Char.ofNat ((b - 0xC0) * 64 + (b2 - 0x80)) :: utf8Decode repl rest2
        else repl.toList ++ utf8Decode repl (b2 :: rest2)
      | [] => repl.toList
    else if 0xE0 ≤ b && b ≤ 0xEF then
      match rest with
      | b2 :: b3 :: rest2 =>
        if utf8SecondOk b b2 && isCont b3 then
          Char.ofNat ((b - 0xE0) * 4096 + (b2 - 0x80) * 64 + (b3 - 0x80)) ::
            utf8Decode repl rest2
        else repl.toList ++ utf8Decode repl (b2 :: b3 :: rest2)
      | other => repl.toList ++ utf8Decode repl other
    else if 0xF0 ≤ b && b ≤ 0xF4 then
      match rest with
      | b2 :: b3 :: b4 :: rest2 =>
        if utf8SecondOk b b2 && isCont b3 && isCont b4 then
          Char.ofNat ((b - 0xF0) * 262144 + (b2 - 0x80) * 4096 +
              (b3 - 0x80) * 64 + (b4 - 0x80)) :: utf8Decode repl rest2
        else repl.toList ++ utf8Decode repl (b2 :: b3 :: b4 :: rest2)
      | other => repl.toList ++ utf8Decode repl other
    else repl.toList ++ utf8Decode repl rest

/-! ## urllib.parse.unquote and parse_qs -/

/-- Worker of `unquote`.  CPython splits the input into maximal
ASCII runs, converts each run to bytes (percent-escapes decoded,
literal ASCII characters kept), decodes the bytes as UTF-8 with
errors='replace', and passes non-ASCII characters through unchanged.
`acc` holds the bytes of the current ASCII run, reversed. -/
def unquoteGo (repl : Option Char) : List Char → List Nat → List Char
  | [], acc => utf8Decode repl acc.reverse
  | '%' :: h :: l :: rest, acc =>
    match hexDigit h, hexDigit l with
    | some a, some b => unquoteGo repl rest ((a * 16 + b) :: acc)
    | _, _ => unquoteGo repl (h :: l :: rest) (0x25 :: acc)
  | '%' :: rest, acc => unquoteGo repl rest (0x25 :: acc)
  | c :: rest, acc =>
    if c.toNat < 0x80 then unquoteGo repl rest (c.toNat :: acc)
    else utf8Decode repl acc.reverse ++ c :: unquoteGo repl rest []

/-- Python urllib.parse.unquote with its default errors='replace'. -/
def unquote (l : List Char) : List Char :=
  unquoteGo (some (Char.ofNat 0xFFFD)) l []

/-- Python s.replace('+', ' '), used by parse_qsl on names and values. -/
def plusToSpace (l : List Char) : List Char :=
  l.map (fun c => if c == '+' then ' ' else c)

/-- Python urllib.parse.parse_qsl with default arguments: split the
query on '&', skip empty chunks, split each chunk at the first '=',
skip chunks with no '=' or with an empty value (keep_blank_values is
false), and percent-plus-decode names and values. -/
def parse_qsl (qs : List Char) : List (String × String) :=
  (pySplit '&' qs).filterMap fun nv =>
    if nv.isEmpty then none
    else
      match splitOnce '=' nv with
      | none => none
      | some (n, v) =>
        if v.isEmpty then none
        else some ((unquote (plusToSpace n)).asString, (unquote (plusToSpace v)).asString)

/-- Insert one (name, value) pair into a parse_qs result: append to
the value list of an existing name, else add a new entry at the end. -/
def qsInsert (k : String) (v : String) : List (String × List String) → List (String × List String)
  | [] => [(k, [v])]
  | (k', vs) :: rest =>
    if k' == k then (k', vs ++ [v]) :: rest else (k', vs) :: qsInsert k v rest

/-- Python urllib.parse.parse_qs: parse_qsl pairs grouped by name. -/
def parse_qs (qs : List Char) : List (String × List String) :=
  (parse_qsl qs).foldl (fun acc p => qsInsert p.1 p.2 acc) []

/-- Python dict lookup on a parse_qs result (query_params.get(k)). -/
def qsGet (k : String) : List (String × List String) → Option (List String)
  | [] => none
  | (k', vs) :: rest => if k' == k then some vs else qsGet k rest

/-- Python query_params.get(k, [dflt])[0]: indexing raises when the
stored list is empty (which parse_qs never produces); `none` models
that exception. -/
def qsFirst (qp : List (String × List String)) (k : String) (dflt : String) : Option String :=
  match qsGet k qp with
  | none => some dflt
  | some [] => none
  | some (v :: _) => some v

/-- Well-formedness of a query dict: no empty value list (parse_qs
never produces one, since pairs with empty values are skipped). -/
def qsWF (qp : List (String × List String)) : Prop := ∀ p ∈ qp, p.2 ≠ []

/-! ## Python int() and str() -/

/-- Digit run of Python int() after the first digit: decimal digits
with single underscores allowed between digits. -/
def pyDigitsGo : List Char → Nat → Option Nat
  | [], acc => some acc
  | ['_'], _ => none
  | '_' :: c :: rest, acc =>
    if c.isDigit then pyDigitsGo rest (acc * 10 + (c.toNat - 48)) else none
  | c :: rest, acc =>
    if c.isDigit then pyDigitsGo rest (acc * 10 + (c.toNat - 48)) else none

/-- Unsigned part of Python int(): at least one digit, underscores only
between digits. -/
def pyIntCore : List Char → Option Nat
  | [] => none
  | c :: rest => if c.isDigit then pyDigitsGo rest (c.toNat - 48) else none

/-- Python int(str): optional surrounding whitespace, an optional sign,
then decimal digits (underscores allowed between digits); `none` models
the ValueError on anything else. -/
def pyInt (l : List Char) : Option Int :=
  match pyStrip l with
  | '+' :: rest => (pyIntCore rest).map Int.ofNat
  | '-' :: rest => (pyIntCore rest).map (fun n => -(Int.ofNat n))
  | rest => (pyIntCore rest).map Int.ofNat

mutual

/-- Python str() of a value, as f-string interpolation and the dedup
key builder use it: strings unchanged, everything else via repr. -/
def pyStr : Value → String
  | vstr s => s
  | v => pyRepr v

/-- Python repr() of a value.  String-escaping subtleties are not
reproduced (strings are wrapped in single quotes as they are); the
script only ever interpolates strings and ints, so the container and
quoted-string cases are never reached on its data. -/
def pyRepr : Value → String
  | vnull => "None"
  | vbool true => "True"
  | vbool false => "False"
  | vint n => toString n
  | vstr s => String.singleton (Char.ofNat 39) ++ s ++ String.singleton (Char.ofNat 39)
  | vlist xs => "[" ++ pyReprList xs ++ "]"
  | vdict kvs => "\x7b" ++ pyReprEntries kvs ++ "\x7d"

/-- Comma-joined reprs of list items. -/
def pyReprList : List Value → String
  | [] => ""
  | [x] => pyRepr x
  | x :: xs => pyRepr x ++ ", " ++ pyReprList xs

/-- Comma-joined "key: value" reprs of dict entries. -/
def pyReprEntries : List (String × Value) → String
  | [] => ""
  | [(k, v)] =>
    String.singleton (Char.ofNat 39) ++ k ++ String.singleton (Char.ofNat 39) ++ ": " ++ pyRepr v
  | (k, v) :: rest =>
    String.singleton (Char.ofNat 39) ++ k ++ String.singleton (Char.ofNat 39) ++ ": " ++ pyRepr v
      ++ ", " ++ pyReprEntries rest

end

mutual

/-- Python == on our values: bools compare with ints numerically
(True == 1), strings by content, lists elementwise, dicts by key set
and per-key equality, None only to None; different kinds otherwise
compare unequal. -/
def pyEq : Value → Value → Bool
  | vnull, vnull => true
  | vbool a, vbool b => a == b
  | vbool a, vint b => (if a then (1 : Int) else 0) == b
  | vint a, vbool b => a == (if b then (1 : Int) else 0)
  | vint a, vint b => a == b
  | vstr a, vstr b => a == b
  | vlist a, vlist b => pyEqList a b
  | vdict a, vdict b => a.length == b.length && pyEqDictGo a b
  | _, _ => false

/-- Elementwise Python == on lists. -/
def pyEqList : List Value → List Value → Bool
  | [], [] => true
  | x :: xs, y :: ys => pyEq x y && pyEqList xs ys
  | _, _ => false

/-- Every entry of the first dict is matched by the second. -/
def pyEqDictGo : List (String × Value) → List (String × Value) → Bool
  | [], _ => true
  | (k, v) :: rest, b =>
    (match lookupKey k b with
     | some w => pyEq v w
     | none => false) && pyEqDictGo rest b

end

/-- Python `x in l` (membership by ==). -/
def pyMem (v : Value) (l : List Value) : Bool := l.any (fun w => pyEq v w)

/-! ## Base64Codec: safe_decode_base64 -/

/-- Value of a character in the standard base64 alphabet. -/
def b64StdVal (c : Char) : Option Nat :=
  if 'A' ≤ c && c ≤ 'Z' then some (c.toNat - 'A'.toNat)
  else if 'a' ≤ c && c ≤ 'z' then some (c.toNat - 'a'.toNat + 26)
  else if '0' ≤ c && c ≤ '9' then some (c.toNat - '0'.toNat + 52)
  else if c == '+' then some 62
  else if c == '/' then some 63
  else none

/-- Value of a character for urlsafe_b64decode, which translates '-'
to '+' and '_' to '/' before the standard decode (so '+' and '/'
themselves stay valid). -/
def b64UrlVal (c : Char) : Option Nat :=
  if c == '-' then some 62
  else if c == '_' then some 63
  else b64StdVal c

/-- A character of a well-formed standard-alphabet base64 string:
alphabet or padding. -/
def b64StdOrPad (c : Char) : Bool := (b64StdVal c).isSome || c == '='

/-- binascii.a2b_base64 in non-strict mode, as CPython implements it:
characters outside the alphabet are skipped; '=' seen with at least two
characters in the current group either finishes the data (once the
group is completed by padding) or is counted; a group left with 1-3
characters at end of input is an error.  State: current group position
(0-3), pending bits, count of padding seen, output bytes reversed. -/
def a2bGo (tbl : Char → Option Nat) : List Char → Nat → Nat → Nat → List Nat → Option (List Nat)
  | [], quadPos, _, _, out => if quadPos == 0 then some out.reverse else none
  | c :: rest, quadPos, leftchar, pads, out =>
    if c == '=' then
      if 2 ≤ quadPos then
        if 4 ≤ quadPos + pads + 1 then some out.reverse
        else a2bGo tbl rest quadPos leftchar (pads + 1) out
      else a2bGo tbl rest quadPos leftchar pads out
    else
      match tbl c with
      | none => a2bGo tbl rest quadPos leftchar pads out
      | some v =>
        match quadPos with
        | 0 => a2bGo tbl rest 1 v pads out
        | 1 => a2bGo tbl rest 2 (v % 16) pads ((leftchar * 4 + v / 16) :: out)
        | 2 => a2bGo tbl rest 3 (v % 4) pads ((leftchar * 16 + v / 4) :: out)
        | _ => a2bGo tbl rest 0 0 pads ((leftchar * 64 + v) :: out)

/-- base64.b64decode / urlsafe_b64decode on a str argument: the str is
first encoded as ASCII (non-ASCII raises), then fed to a2b_base64. -/
def b64decodePy (tbl : Char → Option Nat) (l : List Char) : Option (List Nat) :=
  if l.all (fun c => c.toNat < 128) then a2bGo tbl l 0 0 0 [] else none

/-- safe_decode_base64 of the script: falsy (empty) input gives None;
otherwise strip, remove embedded newlines, repair padding to a multiple
of four, then try a standard-alphabet decode and fall back to the
URL-safe alphabet, decoding the result bytes as UTF-8 with errors
ignored; if both decodes raise, return None. -/
def safe_decode_base64 (data : List Char) : Option (List Char) :=
  if data.isEmpty then none
  else
    let d := pyStrip data
    let d := d.filter (fun c => !(c == '\n' || c == '\r'))
    let missing := d.length % 4
    let d := if missing != 0 then d ++ List.replicate (4 - missing) '=' else d
    match b64decodePy b64StdVal d with
    | some bs => some (utf8Decode none bs)
    | none =>
      match b64decodePy b64UrlVal d with
      | some bs => some (utf8Decode none bs)
      | none => none

/-! ## json.loads (the shapes vmess payloads use) -/

/-- JSON whitespace. -/
def jsonWs (c : Char) : Bool := c == ' ' || c == '\t' || c == '\n' || c == '\r'

/-- Skip JSON whitespace. -/
def skipWs (l : List Char) : List Char := l.dropWhile jsonWs

/-- Insert a key into a JSON object under construction with Python
dict semantics: a repeated key overwrites the earlier value in place. -/
def jsonInsert (k : String) (v : Value) : List (String × Value) → List (String × Value)
  | [] => [(k, v)]
  | (k', v') :: rest =>
    if k' == k then (k', v) :: rest else (k', v') :: jsonInsert k v rest

/-- Body of a JSON string after the opening quote, strict mode: raw
control characters are rejected; surrogate pairs in \u escapes are
combined.  A lone surrogate, which Python would keep as an unpaired
str code unit, has no `Char` counterpart and goes through Char.ofNat;
the script's payloads never contain one. -/
def jsonStrGo : List Char → List Char → Option (String × List Char)
  | [], _ => none
  | '"' :: rest, acc => some (acc.reverse.asString, rest)
  | '\\' :: 'u' :: a :: b :: c :: d :: rest, acc =>
    (match hexDigit a, hexDigit b, hexDigit c, hexDigit d with
     | some x, some y, some z, some w =>
       let n := ((x * 16 + y) * 16 + z) * 16 + w
       if 0xD800 ≤ n && n ≤ 0xDBFF then
         match rest with
         | '\\' :: 'u' :: a2 :: b2 :: c2 :: d2 :: rest2 =>
           (match hexDigit a2, hexDigit b2, hexDigit c2, hexDigit d2 with
            | some x2, some y2, some z2, some w2 =>
              let m := ((x2 * 16 + y2) * 16 + z2) * 16 + w2
              if 0xDC00 ≤ m && m ≤ 0xDFFF then
                jsonStrGo rest2
                  (Char.ofNat (0x10000 + (n - 0xD800) * 0x400 + (m - 0xDC00)) :: acc)
              else jsonStrGo ('\\' :: 'u' :: a2 :: b2 :: c2 :: d2 :: rest2) (Char.ofNat n :: acc)
            | _, _, _, _ =>
              jsonStrGo ('\\' :: 'u' :: a2 :: b2 :: c2 :: d2 :: rest2) (Char.ofNat n :: acc))
         | other => jsonStrGo other (Char.ofNat n :: acc)
       else jsonStrGo rest (Char.ofNat n :: acc)
     | _, _, _, _ => none)
  | '\\' :: e :: rest, acc =>
    (match e with
     | '"' => jsonStrGo rest ('"' :: acc)
     | '\\' => jsonStrGo rest ('\\' :: acc)
     | '/' => jsonStrGo rest ('/' :: acc)
     | 'b' => jsonStrGo rest (Char.ofNat 8 :: acc)
     | 'f' => jsonStrGo rest (Char.ofNat 12 :: acc)
     | 'n' => jsonStrGo rest ('\n' :: acc)
     | 'r' => jsonStrGo rest ('\r' :: acc)
     | 't' => jsonStrGo rest ('\t' :: acc)
     | _ => none)
  | ['\\'], _ => none
  | c :: rest, acc => if c.toNat < 0x20 then none else jsonStrGo rest (c :: acc)

/-- Consume a run of decimal digits. -/
def jsonDigitsGo : List Char → Nat → Nat × List Char
  | [], acc => (acc, [])
  | c :: rest, acc =>
    if c.isDigit then jsonDigitsGo rest (acc * 10 + (c.toNat - 48)) else (acc, c :: rest)

/-- JSON unsigned integer literal: a single 0 or a run led by a nonzero
digit.  A following fraction or exponent would be a Python float, which
this model does not represent (vmess payloads carry integer or string
numbers only), so it fails the parse. -/
def jsonNat : List Char → Option (Nat × List Char)
  | [] => none
  | c :: rest =>
    if c == '0' then
      match rest with
      | d :: _ => if d.isDigit || d == '.' || d == 'e' || d == 'E' then none else some (0, rest)
      | [] => some (0, [])
    else if c.isDigit then
      let p := jsonDigitsGo rest (c.toNat - 48)
      match p.2 with
      | d :: _ => if d == '.' || d == 'e' || d == 'E' then none else some p
      | [] => some p
    else none

mutual

/-- One JSON value, fueled (the fuel, chosen above the input length at
the top entry, never binds on terminating inputs). -/
def jsonVal : Nat → List Char → Option (Value × List Char)
  | 0, _ => none
  | fuel + 1, l =>
    match skipWs l with
    | '"' :: rest => (jsonStrGo rest []).map (fun p => (vstr p.1, p.2))
    | 't' :: 'r' :: 'u' :: 'e' :: rest => some (vbool true, rest)
    | 'f' :: 'a' :: 'l' :: 's' :: 'e' :: rest => some (vbool false, rest)
    | 'n' :: 'u' :: 'l' :: 'l' :: rest => some (vnull, rest)
    | '\x7b' :: rest =>
      (match skipWs rest with
       | '\x7d' :: rest2 => some (vdict [], rest2)
       | _ => jsonObjGo fuel rest [])
    | '[' :: rest =>
      (match skipWs rest with
       | ']' :: rest2 => some (vlist [], rest2)
       | _ => jsonArrGo fuel rest [])
    | '-' :: rest => (jsonNat rest).map (fun p => (vint (-(Int.ofNat p.1)), p.2))
    | c :: rest =>
      if c.isDigit then (jsonNat (c :: rest)).map (fun p => (vint (Int.ofNat p.1), p.2))
      else none
    | [] => none

/-- Members of a JSON object after the opening brace (non-empty case). -/
def jsonObjGo : Nat → List Char → List (String × Value) → Option (Value × List Char)
  | 0, _, _ => none
  | fuel + 1, l, acc =>
    match skipWs l with
    | '"' :: rest =>
      (match jsonStrGo rest [] with
       | none => none
       | some (k, rest2) =>
         match skipWs rest2 with
         | ':' :: rest3 =>
           (match jsonVal fuel rest3 with
            | none => none
            | some (v, rest4) =>
              let acc := jsonInsert k v acc
              match skipWs rest4 with
              | ',' :: rest5 => jsonObjGo fuel rest5 acc
              | '\x7d' :: rest5 => some (vdict acc, rest5)
              | _ => none)
         | _ => none)
    | _ => none

/-- Items of a JSON array after the opening bracket (non-empty case). -/
def jsonArrGo : Nat → List Char → List Value → Option (Value × List Char)
  | 0, _, _ => none
  | fuel + 1, l, acc =>
    match jsonVal fuel l with
    | none => none
    | some (v, rest) =>
      match skipWs rest with
      | ',' :: rest2 => jsonArrGo fuel rest2 (v :: acc)
      | ']' :: rest2 => some (vlist (v :: acc).reverse, rest2)
      | _ => none

end

/-- json.loads: one value with surrounding whitespace, end of input
required. -/
def jsonParse (l : List Char) : Option Value :=
  match jsonVal (2 * l.length + 2) l with
  | some (v, rest) => if (skipWs rest).isEmpty then some v else none
  | none => none

/-! ## ProtocolDecoders: parse_hysteria2, parse_ss, parse_vmess,
parse_trojan, parse_vless -/

/-- Hysteria2 node dict as the script builds it: the base entries, then
sni / skip-cert-verify / alpn conditionally appended, cleaned as a
whole.  `none` models the IndexError Python would raise indexing an
empty query-value list (which parse_qs never produces); the or of the
two insecure flags short-circuits as Python's does. -/
def hysteria2Config (name password server : List Char) (port : Int)
    (qp : List (String × List String)) : Option Value := do
  let base : List (String × Value) :=
    [("name", vstr (if name.isEmpty then
        ("Hysteria2-" ++ server.asString ++ ":" ++ toString port) else name.asString)),
     ("type", vstr "hysteria2"),
     ("server", vstr server.asString),
     ("port", vint port),
     ("password", vstr password.asString)]
  let base := match qsGet "sni" qp with
    | some (v :: _) => base ++ [("sni", vstr v)]
    | _ => base
  let i1 ← qsFirst qp "insecure" "0"
  let insecure ← if i1 == "1" then pure true else do
    let i2 ← qsFirst qp "allowInsecure" "0"
    pure (i2 == "1")
  let base := if insecure then base ++ [("skip-cert-verify", vbool true)] else base
  let base := match qsGet "alpn" qp with
    | some (v :: _) =>
      base ++ [("alpn", vlist ((pySplit ',' v.toList).map (fun s => vstr s.asString)))]
    | _ => base
  return clean_config (vdict base)

/-- parse_hysteria2 of the script.  It mirrors the source exactly,
including its `url[11:]` prefix strip (one character short of the
12-character 'hysteria2://', so the remainder keeps a leading '/' that
ends up glued onto the password). -/
def parse_hysteria2 (url : List Char) : Option Value :=
  let u := url.drop 11
  let (u, name) :=
    match splitOnce '#' u with
    | some (a, frag) => (a, unquote frag)
    | none => (u, ([] : List Char))
  match splitOnce '@' u with
  | none => none
  | some (auth, serverPart) =>
    let password := auth
    let (spp, qp) :=
      match splitOnce '?' serverPart with
      | some (sp, q) => (sp, parse_qs q)
      | none => (serverPart, [])
    match splitOnce ':' spp with
    | some (srv, portStr) =>
      match pyInt portStr with
      | none => none
      | some port => hysteria2Config name password srv port qp
    | none => hysteria2Config name password spp 443 qp

/-- The fallback branch of parse_ss's credential decode: re-decode the
part before '@' and split it at the first ':'; fail (return None) when
there is no '@' or the decoded text has no ':'. -/
def ssAuthFallback (u : List Char) : Option (List Char × List Char) :=
  match splitOnce '@' u with
  | none => none
  | some (encodedAuth, _) =>
    match safe_decode_base64 encodedAuth with
    | none => none
    | some dec => if !dec.isEmpty && dec.contains ':' then splitOnce ':' dec else none

/-- parse_ss of the script: base64-decode the part before '@' (or the
whole remainder), split the decode at the first ':' into method and
password with a fallback second attempt, then read server and port
from after '@' (an explicit ':port' is required). -/
def parse_ss (url : List Char) : Option Value := do
  let u := url.drop 5
  let (u, name) :=
    match splitOnce '#' u with
    | some (a, frag) => (a, unquote frag)
    | none => (u, ([] : List Char))
  let decoded := safe_decode_base64 (match splitOnce '@' u with
    | some (a, _) => a
    | none => u)
  let (method, password) ←
    match decoded with
    | some dec =>
      if !dec.isEmpty && dec.contains ':' then splitOnce ':' dec
      else ssAuthFallback u
    | none => ssAuthFallback u
  let serverPart := match splitOnce '@' u with
    | some (_, sp) => sp
    | none => u
  let serverPart := match splitOnce '?' serverPart with
    | some (sp, _) => sp
    | none => serverPart
  match splitOnce ':' serverPart with
  | none => none
  | some (server, portStr) =>
    match pyInt portStr with
    | none => none
    | some port =>
      return clean_config (vdict
        [("name", vstr (if name.isEmpty then
            ("SS-" ++ server.asString ++ ":" ++ toString port) else name.asString)),
         ("type", vstr "ss"),
         ("server", vstr server.asString),
         ("port", vint port),
         ("cipher", vstr method.asString),
         ("password", vstr password.asString),
         ("udp", vbool true)])

/-- Python int() applied to a JSON value: ints pass through, bools are
ints (True is 1), strings go through the string parse; anything else
is a TypeError, caught by the decoder's except. -/
def pyIntOfValue : Value → Option Int
  | vint n => some n
  | vbool b => some (if b then 1 else 0)
  | vstr s => pyInt s.toList
  | _ => none

/-- parse_vmess of the script: base64-decode the whole payload, parse
it as JSON (a non-object raises on .get and yields None), then map the
fixed key set into the node dict, cleaned as a whole. -/
def parse_vmess (url : List Char) : Option Value := do
  let encoded := url.drop 8
  let decoded ← safe_decode_base64 encoded
  if decoded.isEmpty then none
  else
    match jsonParse decoded with
    | some (vdict cfg) => do
      let port ← pyIntOfValue (getD (vdict cfg) "port" (vint 443))
      let aid ← pyIntOfValue (getD (vdict cfg) "aid" (vint 0))
      let base : List (String × Value) :=
        [("name", getD (vdict cfg) "ps"
            (vstr ("VMess-" ++ pyStr (getD (vdict cfg) "add" (vstr "unknown"))))),
         ("type", vstr "vmess"),
         ("server", getD (vdict cfg) "add" (vstr "")),
         ("port", vint port),
         ("uuid", getD (vdict cfg) "id" (vstr "")),
         ("alterId", vint aid),
         ("cipher", getD (vdict cfg) "scy" (vstr "auto")),
         ("udp", vbool true)]
      let base := if pyEq (getD (vdict cfg) "tls" vnull) (vstr "tls") then
          base ++ [("tls", vbool true),
                   ("skip-cert-verify", vbool (pyMem (getD (vdict cfg) "allowInsecure" vnull)
                      [vbool true, vstr "true", vstr "1"]))]
        else base
      let sni := getD (vdict cfg) "sni" vnull
      let sni := if truthy sni then sni else getD (vdict cfg) "host" vnull
      let base := if truthy sni then base ++ [("servername", sni)] else base
      let network := getD (vdict cfg) "net" (vstr "tcp")
      let base :=
        if !pyEq network (vstr "tcp") then
          let base := base ++ [("network", network)]
          if pyEq network (vstr "ws") then
            let wsOpts : List (String × Value) := []
            let wsOpts := if truthy (getD (vdict cfg) "path" vnull) then
                wsOpts ++ [("path", getD (vdict cfg) "path" vnull)] else wsOpts
            let wsOpts := if truthy (getD (vdict cfg) "host" vnull) then
                wsOpts ++ [("headers", vdict [("Host", getD (vdict cfg) "host" vnull)])]
              else wsOpts
            if wsOpts.isEmpty then base else base ++ [("ws-opts", vdict wsOpts)]
          else base
        else base
      return clean_config (vdict base)
    | _ => none

/-- Trojan node dict as the script builds it: sni falls back to the
server when the query value is falsy, skip-cert-verify reads only
allowInsecure, both inside the dict literal; cleaned as a whole. -/
def trojanConfig (name password server : List Char) (port : Int)
    (qp : List (String × List String)) : Option Value := do
  let sniV ← qsFirst qp "sni" ""
  let sni := if sniV == "" then server.asString else sniV
  let ai ← qsFirst qp "allowInsecure" "0"
  return clean_config (vdict
    [("name", vstr (if name.isEmpty then
        ("Trojan-" ++ server.asString ++ ":" ++ toString port) else name.asString)),
     ("type", vstr "trojan"),
     ("server", vstr server.asString),
     ("port", vint port),
     ("password", vstr password.asString),
     ("sni", vstr sni),
     ("skip-cert-verify", vbool (ai == "1")),
     ("udp", vbool true)])

/-- parse_trojan of the script: fragment, '@' split, optional query,
optional ':port' with default 443. -/
def parse_trojan (url : List Char) : Option Value :=
  let u := url.drop 9
  let (u, name) :=
    match splitOnce '#' u with
    | some (a, frag) => (a, unquote frag)
    | none => (u, ([] : List Char))
  match splitOnce '@' u with
  | none => none
  | some (auth, serverPart) =>
    let password := auth
    let (spp, qp) :=
      match splitOnce '?' serverPart with
      | some (sp, q) => (sp, parse_qs q)
      | none => (serverPart, [])
    match splitOnce ':' spp with
    | some (srv, portStr) =>
      match pyInt portStr with
      | none => none
      | some port => trojanConfig name password srv port qp
    | none => trojanConfig name password spp 443 qp

/-- VLESS node dict as the script builds it: tls and skip-cert-verify
are appended only for security in {tls, xtls}; servername is appended
last, falling back to the server; cleaned as a whole. -/
def vlessConfig (name uuid server : List Char) (port : Int)
    (qp : List (String × List String)) : Option Value := do
  let base : List (String × Value) :=
    [("name", vstr (if name.isEmpty then
        ("VLESS-" ++ server.asString ++ ":" ++ toString port) else name.asString)),
     ("type", vstr "vless"),
     ("server", vstr server.asString),
     ("port", vint port),
     ("uuid", vstr uuid.asString),
     ("udp", vbool true)]
  let security ← qsFirst qp "security" ""
  let base ←
    if security == "tls" || security == "xtls" then do
      let ai ← qsFirst qp "allowInsecure" "0"
      pure (base ++ [("tls", vbool true), ("skip-cert-verify", vbool (ai == "1"))])
    else pure base
  let sniV ← qsFirst qp "sni" ""
  let sni := if sniV == "" then server.asString else sniV
  return clean_config (vdict (base ++ [("servername", vstr sni)]))

/-- parse_vless of the script: same shape as parse_trojan with the
credential part read as the uuid. -/
def parse_vless (url : List Char) : Option Value :=
  let u := url.drop 8
  let (u, name) :=
    match splitOnce '#' u with
    | some (a, frag) => (a, unquote frag)
    | none => (u, ([] : List Char))
  match splitOnce '@' u with
  | none => none
  | some (uuidPart, serverPart) =>
    let uuid := uuidPart
    let (spp, qp) :=
      match splitOnce '?' serverPart with
      | some (sp, q) => (sp, parse_qs q)
      | none => (serverPart, [])
    match splitOnce ':' spp with
    | some (srv, portStr) =>
      match pyInt portStr with
      | none => none
      | some port => vlessConfig name uuid srv port qp
    | none => vlessConfig name uuid spp 443 qp

/-! ## DecoderRegistry: parse_proxy_url -/

/-- parse_proxy_url of the script: reject falsy input, strip, then
dispatch on the five recognized scheme prefixes; any other prefix --
including ssr://, tuic://, juicity://, wireguard://, wg:// and
reality:// -- falls through to None. -/
def parse_proxy_url (url : List Char) : Option Value :=
  if url.isEmpty then none
  else
    let u := pyStrip url
    if startsWithL "hysteria2://".toList u then parse_hysteria2 u
    else if startsWithL "ss://".toList u then parse_ss u
    else if startsWithL "vmess://".toList u then parse_vmess u
    else if startsWithL "trojan://".toList u then parse_trojan u
    else if startsWithL "vless://".toList u then parse_vless u
    else none

/-- process_subscription_content of the script: split on newlines,
strip each line, skip blank and '#' lines, keep truthy parse results. -/
def process_subscription_content (content : List Char) : List Value :=
  if content.isEmpty then []
  else
    (pySplit '\n' content).filterMap fun line =>
      let line := pyStrip line
      if line.isEmpty || startsWithL "#".toList line then none
      else
        match parse_proxy_url line with
        | some p => if truthy p then some p else none
        | none => none

/-! ## Deduplicator (the dedup loop of main) -/

/-- The identity key main builds for a node:
str(get server)':'str(get port)':'str(get type), all defaulting ''. -/
def dedupeKey (p : Value) : String :=
  pyStr (getD p "server" (vstr "")) ++ ":" ++ pyStr (getD p "port" (vstr "")) ++ ":" ++
    pyStr (getD p "type" (vstr ""))

/-- The dedup loop of main: falsy entries are skipped; an entry whose
key was already seen is dropped; first-seen order is kept. -/
def dedupeGo (seen : List String) : List Value → List Value
  | [] => []
  | p :: rest =>
    if !truthy p then dedupeGo seen rest
    else
      let key := dedupeKey p
      if seen.contains key then dedupeGo seen rest
      else p :: dedupeGo (key :: seen) rest

/-- Deduplication over the collected node list, as main performs it. -/
def dedupe (l : List Value) : List Value := dedupeGo [] l

/-! ## ConfigAssembler: load_acl4ssr_rules and
generate_clash_config_with_comments -/

/-- The built-in rule list load_acl4ssr_rules falls back to when no
rule set could be downloaded. -/
def builtinRules : List (List Char) :=
  ["DOMAIN-SUFFIX,local,DIRECT",
   "IP-CIDR,127.0.0.0/8,DIRECT",
   "IP-CIDR,172.16.0.0/12,DIRECT",
   "IP-CIDR,192.168.0.0/16,DIRECT",
   "IP-CIDR,10.0.0.0/8,DIRECT",
   "IP-CIDR,100.64.0.0/10,DIRECT",
   "IP-CIDR,169.254.0.0/16,DIRECT",
   "DOMAIN-KEYWORD,adservice,REJECT",
   "DOMAIN-SUFFIX,doubleclick.net,REJECT",
   "DOMAIN-SUFFIX,googleadservices.com,REJECT",
   "DOMAIN-SUFFIX,googlesyndication.com,REJECT",
   "DOMAIN-SUFFIX,cn,DIRECT",
   "DOMAIN-SUFFIX,baidu.com,DIRECT",
   "DOMAIN-SUFFIX,qq.com,DIRECT",
   "DOMAIN-SUFFIX,taobao.com,DIRECT",
   "DOMAIN-SUFFIX,jd.com,DIRECT",
   "DOMAIN-SUFFIX,weibo.com,DIRECT",
   "DOMAIN-SUFFIX,sina.com,DIRECT",
   "DOMAIN-SUFFIX,163.com,DIRECT",
   "DOMAIN-SUFFIX,126.com,DIRECT",
   "DOMAIN-SUFFIX,alibaba.com,DIRECT",
   "DOMAIN-SUFFIX,alicdn.com,DIRECT",
   "DOMAIN-SUFFIX,alipay.com,DIRECT",
   "DOMAIN-SUFFIX,wechat.com,DIRECT",
   "DOMAIN-SUFFIX,tencent.com,DIRECT",
   "DOMAIN-SUFFIX,bilibili.com,DIRECT",
   "DOMAIN-SUFFIX,zhihu.com,DIRECT",
   "DOMAIN-SUFFIX,douyin.com,DIRECT",
   "DOMAIN-SUFFIX,apple.com,节点选择",
   "DOMAIN-SUFFIX,icloud.com,节点选择",
   "DOMAIN-SUFFIX,appstore.com,节点选择",
   "DOMAIN-SUFFIX,itunes.com,节点选择",
   "DOMAIN-SUFFIX,microsoft.com,节点选择",
   "DOMAIN-SUFFIX,windows.com,节点选择",
   "DOMAIN-SUFFIX,office.com,节点选择",
   "DOMAIN-SUFFIX,live.com,节点选择",
   "DOMAIN-SUFFIX,netflix.com,节点选择",
   "DOMAIN-SUFFIX,disneyplus.com,节点选择",
   "DOMAIN-SUFFIX,hbo.com,节点选择",
   "DOMAIN-SUFFIX,hulu.com,节点选择",
   "DOMAIN-SUFFIX,youtube.com,节点选择",
   "DOMAIN-SUFFIX,twitch.tv,节点选择",
   "DOMAIN-SUFFIX,google.com,节点选择",
   "DOMAIN-SUFFIX,github.com,节点选择",
   "DOMAIN-SUFFIX,twitter.com,节点选择",
   "DOMAIN-SUFFIX,facebook.com,节点选择",
   "DOMAIN-SUFFIX,instagram.com,节点选择",
   "DOMAIN-SUFFIX,reddit.com,节点选择",
   "DOMAIN-SUFFIX,wikipedia.org,节点选择",
   "GEOIP,CN,DIRECT",
   "GEOIP,PRIVATE,DIRECT",
   "MATCH,节点选择"].map String.toList

/-- One deduplicating pass of load_acl4ssr_rules: walk the rule list,
appending the rules that satisfy `p` and are not yet in `seen` while
adding them to `seen`; returns the final seen set and the appended
rules in order. -/
def rulePass (p : List Char → Bool) :
    List (List Char) → List (List Char) → List (List Char) × List (List Char)
  | [], seen => (seen, [])
  | r :: rest, seen =>
    if p r && !seen.contains r then
      let res := rulePass p rest (r :: seen)
      (res.1, r :: res.2)
    else rulePass p rest seen

/-- The pure tail of load_acl4ssr_rules, taking the downloaded and
policy-tagged rule list as input (the downloads themselves are the
excluded rule-provider collaborator): fall back to the built-in rules
when nothing was downloaded, deduplicate while reordering rules
containing ',DIRECT' first, then those containing ',REJECT', then the
rest, and finally move rules starting with 'MATCH,' to the end. -/
def load_acl4ssr_rules (all_rules : List (List Char)) : List (List Char) :=
  let all_rules := if all_rules.isEmpty then builtinRules else all_rules
  let p1 := rulePass (fun r => hasSub ",DIRECT".toList r) all_rules []
  let p2 := rulePass (fun r => hasSub ",REJECT".toList r) all_rules p1.1
  let p3 := rulePass (fun _ => true) all_rules p2.1
  let unique := p1.2 ++ p2.2 ++ p3.2
  let matchR := unique.filter (fun r => startsWithL "MATCH,".toList r)
  let otherR := unique.filter (fun r => !startsWithL "MATCH,".toList r)
  otherR ++ matchR

/-- The per-rule policy-group check of the assembler: a rule whose last
comma field is not a known group or node name has that field rewritten
to 节点选择; a rule without a comma passes through (the fewer-than-two
parts branch is vacuous, a comma split always has two parts). -/
def ruleFix (validNames : List Value) (r : List Char) : List Char :=
  if r.contains ',' then
    let parts := pySplit ',' r
    if 2 ≤ parts.length then
      let ref := (parts.getLast?.getD []).asString
      if pyMem (vstr ref) validNames then r
      else joinWith ',' parts.dropLast ++ ",节点选择".toList
    else r
  else r

/-- The placeholder node the assembler falls back to when the node list
is empty. -/
def testNode : Value := vdict
  [("name", vstr "测试节点"), ("type", vstr "ss"), ("server", vstr "example.com"),
   ("port", vint 443), ("cipher", vstr "aes-256-gcm"), ("password", vstr "password"),
   ("udp", vbool true)]

/-- The document-building core of generate_clash_config_with_comments:
fall back to the placeholder node on an empty list, clean each truthy
descriptor, load the rules and rewrite any rule whose target is not a
known group or node name, and build the Clash config dict, cleaned as
a whole.  The comment banner, YAML serialization and file writing
around it are excluded I/O glue; `all_rules` stands for the downloaded
rule set load_acl4ssr_rules starts from. -/
def generate_clash_config_with_comments (proxies : List Value)
    (all_rules : List (List Char)) : Value :=
  let proxies := if proxies.isEmpty then [testNode] else proxies
  let cleaned := (proxies.filter (fun p => truthy p)).map clean_config
  let rules := load_acl4ssr_rules all_rules
  let validNames : List Value :=
    [vstr "DIRECT", vstr "REJECT", vstr "节点选择", vstr "自动选择"] ++
      cleaned.map (fun p => getD p "name" (vstr ""))
  let filtered := rules.map (ruleFix validNames)
  clean_config (vdict
    [("port", vint 7890),
     ("socks-port", vint 7891),
     ("mixed-port", vint 7893),
     ("allow-lan", vbool true),
     ("mode", vstr "Rule"),
     ("log-level", vstr "info"),
     ("external-controller", vstr "0.0.0.0:9090"),
     ("secret", vstr ""),
     ("dns", vdict
       [("enable", vbool true),
        ("ipv6", vbool false),
        ("listen", vstr "0.0.0.0:53"),
        ("default-nameserver", vlist [vstr "223.5.5.5", vstr "119.29.29.29"]),
        ("enhanced-mode", vstr "fake-ip"),
        ("fake-ip-range", vstr "198.18.0.1/16"),
        ("nameserver", vlist
          [vstr "https://doh.pub/dns-query", vstr "https://dns.alidns.com/dns-query"]),
        ("fallback", vlist
          [vstr "https://doh.dns.sb/dns-query", vstr "https://dns.cloudflare.com/dns-query"]),
        ("fallback-filter", vdict
          [("geoip", vbool true), ("ipcidr", vlist [vstr "240.0.0.0/4"])])]),
     ("proxies", vlist (cleaned.take 200)),
     ("proxy-groups", vlist
       [vdict [("name", vstr "节点选择"), ("type", vstr "select"),
               ("proxies", vlist [vstr "自动选择", vstr "DIRECT"])],
        vdict [("name", vstr "自动选择"), ("type", vstr "url-test"),
               ("url", vstr "http://www.gstatic.com/generate_204"),
               ("interval", vint 300), ("tolerance", vint 50),
               ("proxies", vlist ((cleaned.take 200).map (fun p => getD p "name" (vstr "节点"))))],
        vdict [("name", vstr "REJECT"), ("type", vstr "select"),
               ("proxies", vlist [vstr "REJECT"])],
        vdict [("name", vstr "DIRECT"), ("type", vstr "select"),
               ("proxies", vlist [vstr "DIRECT"])]]),
     ("rules", vlist (filtered.map (fun r => vstr r.asString)))])

/-- Scalar values: everything except lists and dicts. -/
def isScalarV : Value → Bool
  | vlist _ => false
  | vdict _ => false
  | _ => true

/-- Is the value a dict? -/
def isDictV : Value → Bool
  | vdict _ => true
  | _ => false

/-!
# Theorems

First the helper lemmas about the embedded functions, then one theorem
(and, where needed, one witness or counterexample) per specification
claim.
-/

mutual

/-- The Normalizer pass is idempotent. -/
theorem clean_config_idem : (v : Value) → clean_config (clean_config v) = clean_config v
  | vnull => rfl
  | vstr _ => rfl
  | vint _ => rfl
  | vbool _ => rfl
  | vlist _ => rfl
  | vdict kvs => by simp [clean_config, cleanEntries_idem kvs]

/-- Entry cleaning is idempotent. -/
theorem cleanEntries_idem : (kvs : List (String × Value)) →
    cleanEntries (cleanEntries kvs) = cleanEntries kvs
  | [] => rfl
  | (k, v) :: rest => by
    cases h : cleanVal v with
    | none => simp [cleanEntries, h, cleanEntries_idem rest]
    | some v' =>
      simp [cleanEntries, h, cleanVal_idem v v' h, cleanEntries_idem rest]

/-- A value kept by `cleanVal` is kept unchanged when cleaned again. -/
theorem cleanVal_idem : (v v' : Value) → cleanVal v = some v' → cleanVal v' = some v'
  | vnull, _, h => by simp [cleanVal] at h
  | vstr s, v', h => by
    by_cases hs : s == ""
    · simp [cleanVal, hs] at h
    · simp [cleanVal, hs] at h
      simp [← h, cleanVal, hs]
  | vint n, v', h => by
    simp [cleanVal] at h
    simp [← h, cleanVal]
  | vbool b, v', h => by
    simp [cleanVal] at h
    simp [← h, cleanVal]
  | vlist xs, v', h => by
    by_cases he : (cleanList xs).isEmpty
    · simp [cleanVal, he] at h
    · simp [cleanVal, he] at h
      simp [← h, cleanVal, cleanList_idem xs, he]
  | vdict kvs, v', h => by
    by_cases he : (cleanEntries kvs).isEmpty
    · simp [cleanVal, he] at h
    · simp [cleanVal, he] at h
      simp [← h, cleanVal, cleanEntries_idem kvs, he]

/-- List-item cleaning is idempotent. -/
theorem cleanList_idem : (xs : List Value) → cleanList (cleanList xs) = cleanList xs
  | [] => rfl
  | x :: xs => by
    by_cases h : isNullV (clean_config x)
    · simp [cleanList, h, cleanList_idem xs]
    · simp [cleanList, h, clean_config_idem x, cleanList_idem xs]

end

/-- A scalar other than None and '' is kept by cleanVal unchanged. -/
theorem cleanVal_scalar : ∀ v : Value, isScalarV v = true → v ≠ vnull → v ≠ vstr "" →
    cleanVal v = some v
  | vnull, _, hn, _ => absurd rfl hn
  | vstr s, _, _, hs => by
    have hne : s ≠ "" := fun he => hs (by rw [he])
    simp [cleanVal, hne]
  | vint _, _, _, _ => rfl
  | vbool _, _, _, _ => rfl
  | vlist _, h, _, _ => by simp [isScalarV] at h
  | vdict _, h, _, _ => by simp [isScalarV] at h

/-- Entry cleaning keeps any key whose value is a scalar other than
None and the empty string, with the value unchanged. -/
theorem lookupKey_cleanEntries_of_scalar :
    ∀ (kvs : List (String × Value)) (k : String) (v : Value),
      isScalarV v = true → v ≠ vnull → v ≠ vstr "" →
      lookupKey k kvs = some v → lookupKey k (cleanEntries kvs) = some v
  | [], _, _, _, _, _, h => by simp [lookupKey] at h
  | (k', v') :: rest, k, v, hs, hn, he, h => by
    by_cases hk : (k' == k) = true
    · have hv : v' = v := by simpa [lookupKey, hk] using h
      subst hv
      simp [cleanEntries, cleanVal_scalar v' hs hn he, lookupKey, hk]
    · have h' : lookupKey k rest = some v := by simpa [lookupKey, hk] using h
      cases hc : cleanVal v' with
      | none =>
        simpa [cleanEntries, hc] using
          lookupKey_cleanEntries_of_scalar rest k v hs hn he h'
      | some w =>
        simp [cleanEntries, hc, lookupKey, hk,
          lookupKey_cleanEntries_of_scalar rest k v hs hn he h']

/-- C9 (confirmed): the Normalizer's prune (clean_config) is idempotent
on every value, and it never removes a key whose value is a scalar
other than None or the empty string — in particular a key holding the
integer 0 is preserved with its value. -/
theorem c9_prune_idempotent_scalar_kept :
    (∀ v : Value, clean_config (clean_config v) = clean_config v) ∧
    (∀ (kvs : List (String × Value)) (k : String) (v : Value),
      isScalarV v = true → v ≠ vnull → v ≠ vstr "" →
      getKey (vdict kvs) k = some v →
      getKey (clean_config (vdict kvs)) k = some v) := by
  refine ⟨clean_config_idem, ?_⟩
  intro kvs k v hs hn he h
  simpa [getKey, clean_config] using
    lookupKey_cleanEntries_of_scalar kvs k v hs hn he (by simpa [getKey] using h)

/-- Witness for C9: a concrete descriptor carrying port 0 is a fixed
point of prune and keeps its zero port. -/
theorem c9_witness :
    clean_config (clean_config (vdict [("name", vstr "n"), ("port", vint 0)])) =
      clean_config (vdict [("name", vstr "n"), ("port", vint 0)]) ∧
    getKey (clean_config (vdict [("name", vstr "n"), ("port", vint 0)])) "port" =
      some (vint 0) :=
  ⟨c9_prune_idempotent_scalar_kept.1 (vdict [("name", vstr "n"), ("port", vint 0)]),
   c9_prune_idempotent_scalar_kept.2 [("name", vstr "n"), ("port", vint 0)] "port" (vint 0)
     rfl (fun h => nomatch h) (fun h => nomatch h) rfl⟩

/-- A list none of whose elements satisfy `p` is untouched by
dropWhile. -/
theorem dropWhile_eq_self_of_none (p : Char → Bool) :
    ∀ l : List Char, (∀ c ∈ l, p c = false) → l.dropWhile p = l
  | [], _ => rfl
  | c :: rest, h => by simp [List.dropWhile_cons, h c (by simp)]

/-- strip is the identity on whitespace-free text. -/
theorem pyStrip_eq_self {l : List Char} (h : ∀ c ∈ l, isWs c = false) : pyStrip l = l := by
  unfold pyStrip
  rw [dropWhile_eq_self_of_none isWs l h,
    dropWhile_eq_self_of_none isWs l.reverse (fun c hc => h c (List.mem_reverse.mp hc)),
    List.reverse_reverse]

/-- Base64 characters are not whitespace. -/
theorem b64StdOrPad_not_ws {c : Char} (h : b64StdOrPad c = true) : isWs c = false := by
  cases hw : isWs c with
  | false => rfl
  | true =>
    exfalso
    simp only [isWs, Bool.or_eq_true, beq_iff_eq] at hw
    rcases hw with ((((h1 | h1) | h1) | h1) | h1) | h1 <;> subst h1 <;>
      exact absurd h (by decide)

/-- Non-whitespace characters are neither newline nor carriage return. -/
theorem not_nl_of_not_ws {c : Char} (h : isWs c = false) : (!(c == '\n' || c == '\r')) = true := by
  simp only [isWs, Bool.or_eq_false_iff, beq_eq_false_iff_ne] at h
  simp [h.1.1.1.2, h.1.1.2]

/-- C8 (confirmed): for a well-formed standard base64 string (length a
multiple of four, characters in the alphabet or padding), stripping any
0-3 of its trailing padding characters does not change the result of
safe_decode_base64 — the padding repair rebuilds the original string
before decoding. -/
theorem c8_strip_padding_same_decode :
    ∀ (s : List Char) (j : Nat), j ≤ 3 →
      s.length % 4 = 0 →
      (∀ c ∈ s, b64StdOrPad c = true) →
      s.drop (s.length - j) = List.replicate j '=' →
      safe_decode_base64 (s.take (s.length - j)) = safe_decode_base64 s := by
  intro s j hj hlen hchars hpad
  have hnws : ∀ c ∈ s, isWs c = false := fun c hc => b64StdOrPad_not_ws (hchars c hc)
  have hfilter : ∀ (l : List Char), (∀ c ∈ l, isWs c = false) →
      l.filter (fun c => !(c == '\n' || c == '\r')) = l := fun l hl =>
    List.filter_eq_self.mpr (fun c hc => not_nl_of_not_ws (hl c hc))
  rcases Nat.eq_zero_or_pos j with hj0 | hjpos
  · subst hj0
    simp
  rcases Nat.eq_zero_or_pos s.length with h0 | hpos
  · have hs : s = [] := List.length_eq_zero.mp h0
    subst hs
    simp at hpad
    omega
  have hlen4 : 4 ≤ s.length := by omega
  set t := s.take (s.length - j) with ht
  have htchars : ∀ c ∈ t, isWs c = false := fun c hc =>
    hnws c (List.mem_of_mem_take hc)
  have htlen : t.length = s.length - j := by
    simp [ht]
  have htne : ¬t.isEmpty = true := by
    simp [List.isEmpty_iff, ← List.length_eq_zero, htlen]
    omega
  have hsne : ¬s.isEmpty = true := by
    simp [List.isEmpty_iff, ← List.length_eq_zero]
    omega
  have hmod : t.length % 4 = 4 - j := by omega
  have hrestore : t ++ List.replicate (4 - (4 - j)) '=' = s := by
    have h43 : 4 - (4 - j) = j := by omega
    rw [h43, ht, ← hpad, List.take_append_drop]
  have h4j : ((4 - j : Nat) != 0) = true := by
    simp only [bne_iff_ne, ne_eq]
    omega
  have h00 : ((0 : Nat) != 0) = false := by simp
  simp only [safe_decode_base64, hsne, htne, if_false,
    pyStrip_eq_self htchars, pyStrip_eq_self hnws, hfilter t htchars, hfilter s hnws,
    hmod, hlen, h4j, h00, if_true, hrestore]
  simp

/-- Witness for C8: stripping both padding characters of 'YQ==' leaves
the decode, the text 'a', unchanged. -/
theorem c8_witness :
    safe_decode_base64 ("YQ==".toList.take ("YQ==".toList.length - 2)) =
      safe_decode_base64 "YQ==".toList ∧
    safe_decode_base64 "YQ==".toList = some "a".toList :=
  ⟨c8_strip_padding_same_decode "YQ==".toList 2 (by decide) (by decide) (by decide) (by decide),
   rfl⟩

/-- splitOnce misses when the separator is absent. -/
theorem splitOnce_of_not_mem (sep : Char) : ∀ l : List Char, sep ∉ l → splitOnce sep l = none
  | [], _ => rfl
  | c :: rest, h => by
    have hcs : (c == sep) = false := by
      simp only [beq_eq_false_iff_ne, ne_eq]
      intro hh
      exact h (hh ▸ List.mem_cons_self c rest)
    simp [splitOnce, hcs,
      splitOnce_of_not_mem sep rest (fun hm => h (List.mem_cons_of_mem c hm))]

/-- splitOnce cuts at the first occurrence of the separator. -/
theorem splitOnce_append (sep : Char) : ∀ (a b : List Char), sep ∉ a →
    splitOnce sep (a ++ sep :: b) = some (a, b)
  | [], b, _ => by simp [splitOnce]
  | c :: a, b, h => by
    have hcs : (c == sep) = false := by
      simp only [beq_eq_false_iff_ne, ne_eq]
      intro hh
      exact h (hh ▸ List.mem_cons_self c a)
    simp [splitOnce, hcs,
      splitOnce_append sep a b (fun hm => h (List.mem_cons_of_mem c hm))]

/-- Lookup in cleaned entries skips a leading entry with another key. -/
theorem lookupKey_cleanEntries_cons_ne {k k' : String} {v : Value}
    {rest : List (String × Value)} (h : (k' == k) = false) :
    lookupKey k (cleanEntries ((k', v) :: rest)) = lookupKey k (cleanEntries rest) := by
  cases hc : cleanVal v with
  | none => simp [cleanEntries, hc]
  | some w => simp [cleanEntries, hc, lookupKey, h]

/-- A non-empty character list makes a non-empty string. -/
theorem asString_ne_empty {l : List Char} (h : l ≠ []) : l.asString ≠ "" := by
  intro hh
  apply h
  have := congrArg String.data hh
  simpa [List.asString] using this

/-- C10 (confirmed): for trojan, hysteria2 and vless URIs whose
endpoint part has an '@' but no colon after it, decoding succeeds, the
whole endpoint becomes the server, and the port silently defaults to
443. -/
theorem c10_endpoint_without_port_defaults_443 :
    (∀ auth host : List Char, '#' ∉ auth → '@' ∉ auth →
      '#' ∉ host → '@' ∉ host → ':' ∉ host → '?' ∉ host → host ≠ [] →
      ∃ d, parse_trojan ("trojan://".toList ++ (auth ++ '@' :: host)) = some d ∧
        getKey d "server" = some (vstr host.asString) ∧
        getKey d "port" = some (vint 443)) ∧
    (∀ auth host : List Char, '#' ∉ auth → '@' ∉ auth →
      '#' ∉ host → '@' ∉ host → ':' ∉ host → '?' ∉ host → host ≠ [] →
      ∃ d, parse_hysteria2 ("hysteria2://".toList ++ (auth ++ '@' :: host)) = some d ∧
        getKey d "server" = some (vstr host.asString) ∧
        getKey d "port" = some (vint 443)) ∧
    (∀ auth host : List Char, '#' ∉ auth → '@' ∉ auth →
      '#' ∉ host → '@' ∉ host → ':' ∉ host → '?' ∉ host → host ≠ [] →
      ∃ d, parse_vless ("vless://".toList ++ (auth ++ '@' :: host)) = some d ∧
        getKey d "server" = some (vstr host.asString) ∧
        getKey d "port" = some (vint 443)) := by
  have hfrag : ∀ (auth host : List Char), '#' ∉ auth → '#' ∉ host →
      splitOnce '#' (auth ++ '@' :: host) = none := by
    intro auth host ha hh
    apply splitOnce_of_not_mem
    simp only [List.mem_append, List.mem_cons]
    rintro (h | h | h)
    · exact ha h
    · exact absurd h (by decide)
    · exact hh h
  refine ⟨?_, ?_, ?_⟩
  · intro auth host ha1 ha2 hh1 hh2 hh3 hh4 hne
    have hu : ("trojan://".toList ++ (auth ++ '@' :: host)).drop 9 = auth ++ '@' :: host :=
      List.drop_left' (by rfl)
    have h2 : splitOnce '@' (auth ++ '@' :: host) = some (auth, host) :=
      splitOnce_append '@' auth host ha2
    have h3 : splitOnce '?' host = none := splitOnce_of_not_mem _ _ hh4
    have h4 : splitOnce ':' host = none := splitOnce_of_not_mem _ _ hh3
    have hsv : (host.asString == "") = false := by
      simp only [beq_eq_false_iff_ne, ne_eq]
      exact asString_ne_empty hne
    have hp : parse_trojan ("trojan://".toList ++ (auth ++ '@' :: host)) =
        some (clean_config (vdict
          [("name", vstr ("Trojan-" ++ host.asString ++ ":" ++ toString (443 : Int))),
           ("type", vstr "trojan"),
           ("server", vstr host.asString),
           ("port", vint 443),
           ("password", vstr auth.asString),
           ("sni", vstr host.asString),
           ("skip-cert-verify", vbool false),
           ("udp", vbool true)])) := by
      simp [parse_trojan, hu, hfrag auth host ha1 hh1, h2, h3, h4, trojanConfig, qsFirst, qsGet]
    refine ⟨_, hp, ?_, ?_⟩
    · simp only [clean_config, getKey]
      rw [lookupKey_cleanEntries_cons_ne (by decide), lookupKey_cleanEntries_cons_ne (by decide)]
      simp [cleanEntries, cleanVal, hsv, lookupKey]
    · simp only [clean_config, getKey]
      rw [lookupKey_cleanEntries_cons_ne (by decide), lookupKey_cleanEntries_cons_ne (by decide),
        lookupKey_cleanEntries_cons_ne (by decide)]
      simp [cleanEntries, cleanVal, lookupKey]
  · intro auth host ha1 ha2 hh1 hh2 hh3 hh4 hne
    have hu : ("hysteria2://".toList ++ (auth ++ '@' :: host)).drop 11 =
        '/' :: (auth ++ '@' :: host) := by
      show ("hysteria2:/".toList ++ ('/' :: (auth ++ '@' :: host))).drop 11 = _
      exact List.drop_left' (by rfl)
    have h1 : splitOnce '#' ('/' :: (auth ++ '@' :: host)) = none := by
      rw [show ('/' :: (auth ++ '@' :: host)) = ('/' :: auth) ++ '@' :: host from rfl]
      apply hfrag ('/' :: auth) host ?_ hh1
      simp only [List.mem_cons]
      rintro (h | h)
      · exact absurd h (by decide)
      · exact ha1 h
    have h2 : splitOnce '@' ('/' :: (auth ++ '@' :: host)) = some ('/' :: auth, host) := by
      rw [show ('/' :: (auth ++ '@' :: host)) = ('/' :: auth) ++ '@' :: host from rfl]
      apply splitOnce_append
      simp only [List.mem_cons]
      rintro (h | h)
      · exact absurd h (by decide)
      · exact ha2 h
    have h3 : splitOnce '?' host = none := splitOnce_of_not_mem _ _ hh4
    have h4 : splitOnce ':' host = none := splitOnce_of_not_mem _ _ hh3
    have hsv : (host.asString == "") = false := by
      simp only [beq_eq_false_iff_ne, ne_eq]
      exact asString_ne_empty hne
    have hp : parse_hysteria2 ("hysteria2://".toList ++ (auth ++ '@' :: host)) =
        some (clean_config (vdict
          [("name", vstr ("Hysteria2-" ++ host.asString ++ ":" ++ toString (443 : Int))),
           ("type", vstr "hysteria2"),
           ("server", vstr host.asString),
           ("port", vint 443),
           ("password", vstr ('/' :: auth).asString)])) := by
      simp [parse_hysteria2, hu, h1, h2, h3, h4, hysteria2Config, qsFirst, qsGet]
    refine ⟨_, hp, ?_, ?_⟩
    · simp only [clean_config, getKey]
      rw [lookupKey_cleanEntries_cons_ne (by decide), lookupKey_cleanEntries_cons_ne (by decide)]
      simp [cleanEntries, cleanVal, hsv, lookupKey]
    · simp only [clean_config, getKey]
      rw [lookupKey_cleanEntries_cons_ne (by decide), lookupKey_cleanEntries_cons_ne (by decide),
        lookupKey_cleanEntries_cons_ne (by decide)]
      simp [cleanEntries, cleanVal, lookupKey]
  · intro auth host ha1 ha2 hh1 hh2 hh3 hh4 hne
    have hu : ("vless://".toList ++ (auth ++ '@' :: host)).drop 8 = auth ++ '@' :: host :=
      List.drop_left' (by rfl)
    have h2 : splitOnce '@' (auth ++ '@' :: host) = some (auth, host) :=
      splitOnce_append '@' auth host ha2
    have h3 : splitOnce '?' host = none := splitOnce_of_not_mem _ _ hh4
    have h4 : splitOnce ':' host = none := splitOnce_of_not_mem _ _ hh3
    have hsv : (host.asString == "") = false := by
      simp only [beq_eq_false_iff_ne, ne_eq]
      exact asString_ne_empty hne
    have hp : parse_vless ("vless://".toList ++ (auth ++ '@' :: host)) =
        some (clean_config (vdict
          [("name", vstr ("VLESS-" ++ host.asString ++ ":" ++ toString (443 : Int))),
           ("type", vstr "vless"),
           ("server", vstr host.asString),
           ("port", vint 443),
           ("uuid", vstr auth.asString),
           ("udp", vbool true),
           ("servername", vstr host.asString)])) := by
      simp [parse_vless, hu, hfrag auth host ha1 hh1, h2, h3, h4, vlessConfig, qsFirst, qsGet]
    refine ⟨_, hp, ?_, ?_⟩
    · simp only [clean_config, getKey]
      rw [lookupKey_cleanEntries_cons_ne (by decide), lookupKey_cleanEntries_cons_ne (by decide)]
      simp [cleanEntries, cleanVal, hsv, lookupKey]
    · simp only [clean_config, getKey]
      rw [lookupKey_cleanEntries_cons_ne (by decide), lookupKey_cleanEntries_cons_ne (by decide),
        lookupKey_cleanEntries_cons_ne (by decide)]
      simp [cleanEntries, cleanVal, lookupKey]

/-- Witness for C10: portless trojan, hysteria2 and vless links decode
with server 'h' and port 443. -/
theorem c10_witness :
    (∃ d, parse_trojan ("trojan://".toList ++ ("pw".toList ++ '@' :: "h".toList)) = some d ∧
      getKey d "server" = some (vstr "h".toList.asString) ∧
      getKey d "port" = some (vint 443)) ∧
    (∃ d, parse_hysteria2 ("hysteria2://".toList ++ ("pw".toList ++ '@' :: "h".toList)) = some d ∧
      getKey d "server" = some (vstr "h".toList.asString) ∧
      getKey d "port" = some (vint 443)) ∧
    (∃ d, parse_vless ("vless://".toList ++ ("pw".toList ++ '@' :: "h".toList)) = some d ∧
      getKey d "server" = some (vstr "h".toList.asString) ∧
      getKey d "port" = some (vint 443)) :=
  ⟨c10_endpoint_without_port_defaults_443.1 "pw".toList "h".toList (by decide) (by decide)
     (by decide) (by decide) (by decide) (by decide) (by decide),
   c10_endpoint_without_port_defaults_443.2.1 "pw".toList "h".toList (by decide) (by decide)
     (by decide) (by decide) (by decide) (by decide) (by decide),
   c10_endpoint_without_port_defaults_443.2.2 "pw".toList "h".toList (by decide) (by decide)
     (by decide) (by decide) (by decide) (by decide) (by decide)⟩

/-- Counterexample to C1: the hysteria2 link 'hysteria2://p@:443'
decodes to a descriptor whose server is empty (the key is even pruned
away), yet the dedup loop of main keeps it — no empty-server or
non-positive-port filter runs before key computation, contradicting
the claimed invariant. -/
theorem c1_counterexample :
    process_subscription_content "hysteria2://p@:443".toList =
      [vdict [("name", vstr "Hysteria2-:443"), ("type", vstr "hysteria2"),
              ("port", vint 443), ("password", vstr "/p")]] ∧
    pyStr (getD (vdict [("name", vstr "Hysteria2-:443"), ("type", vstr "hysteria2"),
              ("port", vint 443), ("password", vstr "/p")]) "server" (vstr "")) = "" ∧
    dedupe [vdict [("name", vstr "Hysteria2-:443"), ("type", vstr "hysteria2"),
              ("port", vint 443), ("password", vstr "/p")]] =
      [vdict [("name", vstr "Hysteria2-:443"), ("type", vstr "hysteria2"),
              ("port", vint 443), ("password", vstr "/p")]] :=
  ⟨rfl, rfl, rfl⟩

/-- C1 amended (corrected): before the deduplication key is computed,
main discards only falsy (empty) parse results; any truthy descriptor
— in particular one with an empty server or a non-positive port — is
keyed like any other and appears in the deduplicated output. -/
theorem c1_amended_only_falsy_filtered :
    ∀ kvs : List (String × Value), kvs ≠ [] → dedupe [vdict kvs] = [vdict kvs] := by
  intro kvs h
  have ht : truthy (vdict kvs) = true := by
    cases kvs with
    | nil => exact absurd rfl h
    | cons a l => simp [truthy]
  simp [dedupe, dedupeGo, ht]

/-- Witness for the amended C1 at a descriptor with empty server and
negative port. -/
theorem c1_witness :
    dedupe [vdict [("server", vstr ""), ("port", vint (-1)), ("type", vstr "ss")]] =
      [vdict [("server", vstr ""), ("port", vint (-1)), ("type", vstr "ss")]] :=
  c1_amended_only_falsy_filtered
    [("server", vstr ""), ("port", vint (-1)), ("type", vstr "ss")] (fun h => nomatch h)

/-- dropWhile passes over a non-empty, wholly non-matching prefix. -/
theorem dropWhile_append_of_ne (p : Char → Bool) :
    ∀ (a : List Char), a ≠ [] → (∀ c ∈ a, p c = false) → ∀ rest,
      (a ++ rest).dropWhile p = a ++ rest
  | [], h, _, _ => absurd rfl h
  | c :: a, _, h, rest => by
    simp [List.dropWhile_cons, h c (by simp)]

/-- Stripping text that starts with a non-empty run of non-whitespace
characters only trims whitespace on the right, keeping the prefix. -/
theorem pyStrip_append_of_not_ws {a : List Char} (hne : a ≠ [])
    (ha : ∀ c ∈ a, isWs c = false) (rest : List Char) :
    pyStrip (a ++ rest) = a ++ (rest.reverse.dropWhile isWs).reverse := by
  unfold pyStrip
  rw [dropWhile_append_of_ne isWs a hne ha rest, List.reverse_append,
    List.dropWhile_append]
  by_cases he : (rest.reverse.dropWhile isWs).isEmpty
  · have hnil : rest.reverse.dropWhile isWs = [] := by
      simpa [List.isEmpty_iff] using he
    rw [if_pos he, dropWhile_eq_self_of_none isWs a.reverse
      (fun c hc => ha c (List.mem_reverse.mp hc)), List.reverse_reverse, hnil]
    simp
  · rw [if_neg he]
    simp

/-- Counterexample to C2: well-formed links of six of the eleven
claimed schemes — reality (not rewritten to vless), ssr, tuic, juicity,
wireguard, wg — are not routed to any decoder: parse_proxy_url returns
the unparseable result (None) for all of them. -/
theorem c2_counterexample :
    parse_proxy_url "reality://u-1@h:443?security=reality#N".toList = none ∧
    parse_proxy_url "ssr://c3J2OjQ0MzphdXRoX2FlczEyOF9tZDU6YWVzLTI1Ni1jZmI6dGxzMS4yX3RpY2tldF9hdXRoOmNHRnpjdw".toList = none ∧
    parse_proxy_url "tuic://uuid:pass@h:443".toList = none ∧
    parse_proxy_url "juicity://uuid:pass@h:443".toList = none ∧
    parse_proxy_url "wireguard://h:51820?private_key=a&public_key=b".toList = none ∧
    parse_proxy_url "wg://h:51820?private_key=a&public_key=b".toList = none :=
  ⟨rfl, rfl, rfl, rfl, rfl, rfl⟩

set_option maxRecDepth 100000 in
/-- C2 amended (corrected): the dispatcher recognizes exactly five
scheme prefixes — hysteria2://, ss://, vmess://, trojan://, vless:// —
and routes each to its decoder (a well-formed link of these returns a
descriptor); every line carrying one of the other six listed prefixes
(ssr://, tuic://, juicity://, wireguard://, wg://, reality://) yields
the unparseable result, and reality:// in particular is not rewritten
to vless://. -/
theorem c2_amended_five_scheme_dispatch :
    (∀ rest : List Char, parse_proxy_url ("ssr://".toList ++ rest) = none) ∧
    (∀ rest : List Char, parse_proxy_url ("tuic://".toList ++ rest) = none) ∧
    (∀ rest : List Char, parse_proxy_url ("juicity://".toList ++ rest) = none) ∧
    (∀ rest : List Char, parse_proxy_url ("wireguard://".toList ++ rest) = none) ∧
    (∀ rest : List Char, parse_proxy_url ("wg://".toList ++ rest) = none) ∧
    (∀ rest : List Char, parse_proxy_url ("reality://".toList ++ rest) = none) ∧
    (parse_proxy_url "hysteria2://p@h:443".toList).isSome = true ∧
    (parse_proxy_url "ss://YWVzLTI1Ni1nY206cGFzc3dvcmQ=@example.com:8443#MyNode".toList).isSome
      = true ∧
    (parse_proxy_url "vmess://eyJhZGQiOiIxLjIuMy40IiwicG9ydCI6IjQ0MyIsImlkIjoidS0xIiwiYWlkIjoiMCIsIm5ldCI6IndzIiwicGF0aCI6Ii94IiwiaG9zdCI6ImguZXhhbXBsZSIsInRscyI6InRscyJ9".toList).isSome = true ∧
    (parse_proxy_url "trojan://pw@h.example:443".toList).isSome = true ∧
    (parse_proxy_url "vless://u-1@h:443?security=tls#N".toList).isSome = true := by
  refine ⟨?_, ?_, ?_, ?_, ?_, ?_, rfl, rfl, rfl, rfl, rfl⟩ <;>
    intro rest <;>
    rw [parse_proxy_url,
      pyStrip_append_of_not_ws (by decide) (by decide) rest] <;>
    simp [startsWithL, String.toList]

/-- Lookup in cleaned entries finds a kept value sitting after a
prefix of entries with other keys. -/
theorem lookupKey_cleanEntries_append_hit :
    ∀ (pre : List (String × Value)) (tail : List (String × Value)) (k : String) (v : Value),
      k ∉ pre.map Prod.fst → cleanVal v = some v →
      lookupKey k (cleanEntries (pre ++ (k, v) :: tail)) = some v
  | [], tail, k, v, _, hv => by simp [cleanEntries, hv, lookupKey]
  | (k', w) :: pre, tail, k, v, hpre, hv => by
    have hk : (k' == k) = false := by
      simp only [beq_eq_false_iff_ne, ne_eq]
      intro hh
      exact hpre (by simp [hh])
    rw [List.cons_append, lookupKey_cleanEntries_cons_ne hk]
    exact lookupKey_cleanEntries_append_hit pre tail k v
      (fun hm => hpre (by simp; right; simpa using hm)) hv

/-- A hit of qsGet is an entry of the query dict. -/
theorem qsGet_mem : ∀ (qp : List (String × List String)) (k : String) (vs : List String),
    qsGet k qp = some vs → (k, vs) ∈ qp
  | [], _, _, h => by simp [qsGet] at h
  | (k', vs') :: rest, k, vs, h => by
    by_cases hk : (k' == k) = true
    · have hv : vs' = vs := by simpa [qsGet, hk] using h
      subst hv
      have hkk : k' = k := by simpa using hk
      subst hkk
      exact List.mem_cons_self _ _
    · have h' : qsGet k rest = some vs := by simpa [qsGet, hk] using h
      exact List.mem_cons_of_mem _ (qsGet_mem rest k vs h')

/-- On a well-formed query dict, the get-then-index idiom never
raises. -/
theorem qsFirst_some_of_wf {qp : List (String × List String)} (h : qsWF qp) (k d : String) :
    ∃ s, qsFirst qp k d = some s := by
  unfold qsFirst
  cases hg : qsGet k qp with
  | none => exact ⟨d, rfl⟩
  | some vs =>
    cases vs with
    | nil => exact absurd rfl (h _ (qsGet_mem qp k [] hg))
    | cons v t => exact ⟨v, rfl⟩

/-- Lookup misses when the key is absent. -/
theorem lookupKey_eq_none_of_not_mem : ∀ (kvs : List (String × Value)) (k : String),
    k ∉ kvs.map Prod.fst → lookupKey k kvs = none
  | [], _, _ => rfl
  | (k', v) :: rest, k, h => by
    have hk : (k' == k) = false := by
      simp only [beq_eq_false_iff_ne, ne_eq]
      intro hh
      exact h (by simp [hh])
    simp only [lookupKey, hk, Bool.false_eq_true, if_false]
    exact lookupKey_eq_none_of_not_mem rest k (fun hm => h (by simp; right; simpa using hm))

/-- Cleaning never invents keys. -/
theorem keys_cleanEntries_subset : ∀ (kvs : List (String × Value)) (k : String),
    k ∈ (cleanEntries kvs).map Prod.fst → k ∈ kvs.map Prod.fst
  | [], _, h => by simp [cleanEntries] at h
  | (k', v) :: rest, k, h => by
    cases hc : cleanVal v with
    | none =>
      simp only [cleanEntries, hc] at h
      exact List.mem_cons_of_mem _ (keys_cleanEntries_subset rest k h)
    | some w =>
      simp only [cleanEntries, hc, List.map_cons, List.mem_cons] at h
      rcases h with h | h
      · simp [h]
      · simp [keys_cleanEntries_subset rest k h]

/-- Lookup in a cleaned dict misses when the key is absent from the
original. -/
theorem lookupKey_cleanEntries_eq_none (kvs : List (String × Value)) (k : String)
    (h : k ∉ kvs.map Prod.fst) : lookupKey k (cleanEntries kvs) = none :=
  lookupKey_eq_none_of_not_mem _ k (fun hm => h (keys_cleanEntries_subset kvs k hm))

/-- Counterexample to C3: a vless link with security=reality (and pbk
and sid present) decodes to a descriptor with no tls flag and no
reality sub-object — the decoder treats reality like no security at
all, contradicting the claim that reality sets tlsEnabled and extracts
pbk/sid. -/
theorem c3_counterexample :
    parse_vless "vless://u-1@h:443?security=reality&pbk=KEY&sid=1#N".toList =
      some (vdict [("name", vstr "N"), ("type", vstr "vless"), ("server", vstr "h"),
        ("port", vint 443), ("uuid", vstr "u-1"), ("udp", vbool true),
        ("servername", vstr "h")]) ∧
    getKey (vdict [("name", vstr "N"), ("type", vstr "vless"), ("server", vstr "h"),
      ("port", vint 443), ("uuid", vstr "u-1"), ("udp", vbool true),
      ("servername", vstr "h")]) "tls" = none ∧
    getKey (vdict [("name", vstr "N"), ("type", vstr "vless"), ("server", vstr "h"),
      ("port", vint 443), ("uuid", vstr "u-1"), ("udp", vbool true),
      ("servername", vstr "h")]) "pbk" = none ∧
    getKey (vdict [("name", vstr "N"), ("type", vstr "vless"), ("server", vstr "h"),
      ("port", vint 443), ("uuid", vstr "u-1"), ("udp", vbool true),
      ("servername", vstr "h")]) "sid" = none :=
  ⟨rfl, rfl, rfl, rfl⟩

/-- C3 amended (corrected): for vless, only the security values tls and
xtls set the tls flag on the descriptor; security=reality leaves the
descriptor without a tls flag and no pbk/sid extraction of any kind is
performed. -/
theorem c3_amended_reality_sets_nothing :
    ∀ (name uuid server : List Char) (port : Int)
      (qp : List (String × List String)) (sec : String),
      qsWF qp → qsFirst qp "security" "" = some sec →
      ((sec = "tls" ∨ sec = "xtls") →
        ∃ d, vlessConfig name uuid server port qp = some d ∧
          getKey d "tls" = some (vbool true)) ∧
      (sec = "reality" →
        ∃ d, vlessConfig name uuid server port qp = some d ∧
          getKey d "tls" = none ∧ getKey d "pbk" = none ∧ getKey d "sid" = none) := by
  intro name uuid server port qp sec hwf hsec
  obtain ⟨sv, hsv⟩ := qsFirst_some_of_wf hwf "sni" ""
  constructor
  · intro h
    obtain ⟨ai, hai⟩ := qsFirst_some_of_wf hwf "allowInsecure" "0"
    have hd : vlessConfig name uuid server port qp =
        some (clean_config (vdict
          [("name", vstr (if name.isEmpty then
              ("VLESS-" ++ server.asString ++ ":" ++ toString port) else name.asString)),
           ("type", vstr "vless"),
           ("server", vstr server.asString),
           ("port", vint port),
           ("uuid", vstr uuid.asString),
           ("udp", vbool true),
           ("tls", vbool true),
           ("skip-cert-verify", vbool (ai == "1")),
           ("servername", vstr (if sv == "" then server.asString else sv))])) := by
      rcases h with h | h <;> subst h <;> simp [vlessConfig, hsec, hai, hsv]
    refine ⟨_, hd, ?_⟩
    simp only [clean_config, getKey]
    rw [lookupKey_cleanEntries_cons_ne (by decide), lookupKey_cleanEntries_cons_ne (by decide),
      lookupKey_cleanEntries_cons_ne (by decide), lookupKey_cleanEntries_cons_ne (by decide),
      lookupKey_cleanEntries_cons_ne (by decide), lookupKey_cleanEntries_cons_ne (by decide)]
    simp [cleanEntries, cleanVal, lookupKey]
  · intro h
    subst h
    have hd : vlessConfig name uuid server port qp =
        some (clean_config (vdict
          [("name", vstr (if name.isEmpty then
              ("VLESS-" ++ server.asString ++ ":" ++ toString port) else name.asString)),
           ("type", vstr "vless"),
           ("server", vstr server.asString),
           ("port", vint port),
           ("uuid", vstr uuid.asString),
           ("udp", vbool true),
           ("servername", vstr (if sv == "" then server.asString else sv))])) := by
      simp [vlessConfig, hsec, hsv]
    refine ⟨_, hd, ?_, ?_, ?_⟩ <;>
    · simp only [clean_config, getKey]
      apply lookupKey_cleanEntries_eq_none
      simp

/-- Witness for the amended C3 at concrete query dicts. -/
theorem c3_witness :
    (∃ d, vlessConfig "N".toList "u".toList "h".toList 443 [("security", ["tls"])] = some d ∧
      getKey d "tls" = some (vbool true)) ∧
    (∃ d, vlessConfig "N".toList "u".toList "h".toList 443
        [("security", ["reality"]), ("pbk", ["KEY"]), ("sid", ["1"])] = some d ∧
      getKey d "tls" = none ∧ getKey d "pbk" = none ∧ getKey d "sid" = none) :=
  ⟨(c3_amended_reality_sets_nothing "N".toList "u".toList "h".toList 443
      [("security", ["tls"])] "tls"
      (by intro p hp; fin_cases hp; simp) rfl).1 (Or.inl rfl),
   (c3_amended_reality_sets_nothing "N".toList "u".toList "h".toList 443
      [("security", ["reality"]), ("pbk", ["KEY"]), ("sid", ["1"])] "reality"
      (by intro p hp; fin_cases hp <;> simp) rfl).2 rfl⟩

/-- Counterexample to C4: a trojan link with insecure=1 still gets
skip-cert-verify false (only allowInsecure is read), and a hysteria2
link without an sni query parameter gets no sni at all instead of
defaulting it to the server. -/
theorem c4_counterexample :
    parse_trojan "trojan://pw@h:443?insecure=1".toList =
      some (vdict [("name", vstr "Trojan-h:443"), ("type", vstr "trojan"),
        ("server", vstr "h"), ("port", vint 443), ("password", vstr "pw"),
        ("sni", vstr "h"), ("skip-cert-verify", vbool false), ("udp", vbool true)]) ∧
    parse_hysteria2 "hysteria2://p@h:443".toList =
      some (vdict [("name", vstr "Hysteria2-h:443"), ("type", vstr "hysteria2"),
        ("server", vstr "h"), ("port", vint 443), ("password", vstr "/p")]) ∧
    getKey (vdict [("name", vstr "Hysteria2-h:443"), ("type", vstr "hysteria2"),
        ("server", vstr "h"), ("port", vint 443), ("password", vstr "/p")]) "sni" = none :=
  ⟨rfl, rfl, rfl⟩

/-- C4 amended (corrected): for trojan, sni does default to the server
when absent, but only allowInsecure="1" (not insecure) sets
skip-cert-verify; for hysteria2, either insecure="1" or
allowInsecure="1" sets skip-cert-verify, but an absent sni is simply
omitted instead of defaulting to the server. -/
theorem c4_amended_sni_insecure_asymmetry :
    (∀ (name password server : List Char) (port : Int) (qp : List (String × List String)),
      qsWF qp → server ≠ [] → qsGet "sni" qp = none →
      ∃ d, trojanConfig name password server port qp = some d ∧
        getKey d "sni" = some (vstr server.asString)) ∧
    (∀ (name password server : List Char) (port : Int) (qp : List (String × List String))
      (ai : String), qsWF qp → qsFirst qp "allowInsecure" "0" = some ai →
      ∃ d, trojanConfig name password server port qp = some d ∧
        getKey d "skip-cert-verify" = some (vbool (ai == "1"))) ∧
    (∀ (name password server : List Char) (port : Int) (qp : List (String × List String)),
      qsWF qp → qsGet "sni" qp = none →
      ∃ d, hysteria2Config name password server port qp = some d ∧
        getKey d "sni" = none) ∧
    (∀ (name password server : List Char) (port : Int) (qp : List (String × List String)),
      qsWF qp →
      (qsFirst qp "insecure" "0" = some "1" ∨ qsFirst qp "allowInsecure" "0" = some "1") →
      ∃ d, hysteria2Config name password server port qp = some d ∧
        getKey d "skip-cert-verify" = some (vbool true)) := by
  refine ⟨?_, ?_, ?_, ?_⟩
  · intro name password server port qp hwf hne hsni
    obtain ⟨ai, hai⟩ := qsFirst_some_of_wf hwf "allowInsecure" "0"
    have hsv : qsFirst qp "sni" "" = some "" := by simp [qsFirst, hsni]
    have hd : trojanConfig name password server port qp =
        some (clean_config (vdict
          [("name", vstr (if name.isEmpty then
              ("Trojan-" ++ server.asString ++ ":" ++ toString port) else name.asString)),
           ("type", vstr "trojan"),
           ("server", vstr server.asString),
           ("port", vint port),
           ("password", vstr password.asString),
           ("sni", vstr server.asString),
           ("skip-cert-verify", vbool (ai == "1")),
           ("udp", vbool true)])) := by
      simp [trojanConfig, hsv, hai]
    refine ⟨_, hd, ?_⟩
    have hsrv : (server.asString == "") = false := by
      simp only [beq_eq_false_iff_ne, ne_eq]
      exact asString_ne_empty hne
    simp only [clean_config, getKey]
    rw [lookupKey_cleanEntries_cons_ne (by decide), lookupKey_cleanEntries_cons_ne (by decide),
      lookupKey_cleanEntries_cons_ne (by decide), lookupKey_cleanEntries_cons_ne (by decide),
      lookupKey_cleanEntries_cons_ne (by decide)]
    simp [cleanEntries, cleanVal, hsrv, lookupKey]
  · intro name password server port qp ai hwf hai
    obtain ⟨sv, hsv⟩ := qsFirst_some_of_wf hwf "sni" ""
    have hd : trojanConfig name password server port qp =
        some (clean_config (vdict
          [("name", vstr (if name.isEmpty then
              ("Trojan-" ++ server.asString ++ ":" ++ toString port) else name.asString)),
           ("type", vstr "trojan"),
           ("server", vstr server.asString),
           ("port", vint port),
           ("password", vstr password.asString),
           ("sni", vstr (if sv == "" then server.asString else sv)),
           ("skip-cert-verify", vbool (ai == "1")),
           ("udp", vbool true)])) := by
      simp [trojanConfig, hsv, hai]
    refine ⟨_, hd, ?_⟩
    simp only [clean_config, getKey]
    rw [lookupKey_cleanEntries_cons_ne (by decide), lookupKey_cleanEntries_cons_ne (by decide),
      lookupKey_cleanEntries_cons_ne (by decide), lookupKey_cleanEntries_cons_ne (by decide),
      lookupKey_cleanEntries_cons_ne (by decide), lookupKey_cleanEntries_cons_ne (by decide)]
    simp [cleanEntries, cleanVal, lookupKey]
  · intro name password server port qp hwf hsni
    have key_absent : ∀ L : List (String × Value), "sni" ∉ L.map Prod.fst →
        getKey (clean_config (vdict L)) "sni" = none := by
      intro L hL
      simp only [clean_config, getKey]
      exact lookupKey_cleanEntries_eq_none L _ hL
    obtain ⟨i1, hi1⟩ := qsFirst_some_of_wf hwf "insecure" "0"
    by_cases h1 : i1 = "1"
    · subst h1
      cases halpn : qsGet "alpn" qp with
      | none =>
        refine ⟨_, ?_, key_absent
          [("name", vstr (if name.isEmpty then
              ("Hysteria2-" ++ server.asString ++ ":" ++ toString port) else name.asString)),
           ("type", vstr "hysteria2"),
           ("server", vstr server.asString),
           ("port", vint port),
           ("password", vstr password.asString),
           ("skip-cert-verify", vbool true)] (by simp)⟩
        simp [hysteria2Config, hsni, hi1, halpn]
      | some vs =>
        cases vs with
        | nil => exact absurd rfl (hwf _ (qsGet_mem qp "alpn" [] halpn))
        | cons v t =>
          refine ⟨_, ?_, key_absent
            [("name", vstr (if name.isEmpty then
                ("Hysteria2-" ++ server.asString ++ ":" ++ toString port) else name.asString)),
             ("type", vstr "hysteria2"),
             ("server", vstr server.asString),
             ("port", vint port),
             ("password", vstr password.asString),
             ("skip-cert-verify", vbool true),
             ("alpn", vlist ((pySplit ',' v.toList).map (fun s => vstr s.asString)))]
            (by simp)⟩
          simp [hysteria2Config, hsni, hi1, halpn]
    · obtain ⟨i2, hi2⟩ := qsFirst_some_of_wf hwf "allowInsecure" "0"
      have hne1 : (i1 == "1") = false := by
        simp only [beq_eq_false_iff_ne, ne_eq]
        exact h1
      by_cases h2 : i2 = "1"
      · subst h2
        cases halpn : qsGet "alpn" qp with
        | none =>
          refine ⟨_, ?_, key_absent
            [("name", vstr (if name.isEmpty then
                ("Hysteria2-" ++ server.asString ++ ":" ++ toString port) else name.asString)),
             ("type", vstr "hysteria2"),
             ("server", vstr server.asString),
             ("port", vint port),
             ("password", vstr password.asString),
             ("skip-cert-verify", vbool true)] (by simp)⟩
          simp [hysteria2Config, hsni, hi1, h1, hne1, hi2, halpn]
        | some vs =>
          cases vs with
          | nil => exact absurd rfl (hwf _ (qsGet_mem qp "alpn" [] halpn))
          | cons v t =>
            refine ⟨_, ?_, key_absent
              [("name", vstr (if name.isEmpty then
                  ("Hysteria2-" ++ server.asString ++ ":" ++ toString port) else name.asString)),
               ("type", vstr "hysteria2"),
               ("server", vstr server.asString),
               ("port", vint port),
               ("password", vstr password.asString),
               ("skip-cert-verify", vbool true),
               ("alpn", vlist ((pySplit ',' v.toList).map (fun s => vstr s.asString)))]
              (by simp)⟩
            simp [hysteria2Config, hsni, hi1, h1, hne1, hi2, halpn]
      · have hne2 : (i2 == "1") = false := by
          simp only [beq_eq_false_iff_ne, ne_eq]
          exact h2
        cases halpn : qsGet "alpn" qp with
        | none =>
          refine ⟨_, ?_, key_absent
            [("name", vstr (if name.isEmpty then
                ("Hysteria2-" ++ server.asString ++ ":" ++ toString port) else name.asString)),
             ("type", vstr "hysteria2"),
             ("server", vstr server.asString),
             ("port", vint port),
             ("password", vstr password.asString)] (by simp)⟩
          simp [hysteria2Config, hsni, hi1, h1, hne1, hi2, h2, hne2, halpn]
        | some vs =>
          cases vs with
          | nil => exact absurd rfl (hwf _ (qsGet_mem qp "alpn" [] halpn))
          | cons v t =>
            refine ⟨_, ?_, key_absent
              [("name", vstr (if name.isEmpty then
                  ("Hysteria2-" ++ server.asString ++ ":" ++ toString port) else name.asString)),
               ("type", vstr "hysteria2"),
               ("server", vstr server.asString),
               ("port", vint port),
               ("password", vstr password.asString),
               ("alpn", vlist ((pySplit ',' v.toList).map (fun s => vstr s.asString)))]
              (by simp)⟩
            simp [hysteria2Config, hsni, hi1, h1, hne1, hi2, h2, hne2, halpn]
  · intro name password server port qp hwf hins
    have key_skip : ∀ (pre tail : List (String × Value)),
        "skip-cert-verify" ∉ pre.map Prod.fst →
        getKey (clean_config (vdict (pre ++ ("skip-cert-verify", vbool true) :: tail)))
          "skip-cert-verify" = some (vbool true) := by
      intro pre tail hpre
      simp only [clean_config, getKey]
      exact lookupKey_cleanEntries_append_hit pre tail _ _ hpre rfl
    have hbase : ∃ pre : List (String × Value), "skip-cert-verify" ∉ pre.map Prod.fst ∧
        ∃ tail : List (String × Value),
        hysteria2Config name password server port qp =
          some (clean_config (vdict (pre ++ ("skip-cert-verify", vbool true) :: tail))) := by
      have hinsec : ∃ i1, qsFirst qp "insecure" "0" = some i1 ∧
          (i1 = "1" ∨ (i1 ≠ "1" ∧ ∃ i2, qsFirst qp "allowInsecure" "0" = some i2 ∧ i2 = "1")) := by
        obtain ⟨i1, hi1⟩ := qsFirst_some_of_wf hwf "insecure" "0"
        by_cases h1 : i1 = "1"
        · exact ⟨i1, hi1, Or.inl h1⟩
        · obtain ⟨i2, hi2⟩ := qsFirst_some_of_wf hwf "allowInsecure" "0"
          rcases hins with hcase | hcase
          · exact absurd (by rw [hi1] at hcase; simpa using hcase) h1
          · refine ⟨i1, hi1, Or.inr ⟨h1, i2, hi2, ?_⟩⟩
            rw [hi2] at hcase
            simpa using hcase
      obtain ⟨i1, hi1, hway⟩ := hinsec
      have hsniE : (qsGet "sni" qp = none ∧
            (fun (b : List (String × Value)) => b) = id) ∨
          ∃ v t, qsGet "sni" qp = some (v :: t) := by
        cases hs : qsGet "sni" qp with
        | none => exact Or.inl ⟨rfl, rfl⟩
        | some vs =>
          cases vs with
          | nil => exact absurd rfl (hwf _ (qsGet_mem qp "sni" [] hs))
          | cons v t => exact Or.inr ⟨v, t, rfl⟩
      have halpnE : qsGet "alpn" qp = none ∨ ∃ v t, qsGet "alpn" qp = some (v :: t) := by
        cases ha : qsGet "alpn" qp with
        | none => exact Or.inl rfl
        | some vs =>
          cases vs with
          | nil => exact absurd rfl (hwf _ (qsGet_mem qp "alpn" [] ha))
          | cons v t => exact Or.inr ⟨v, t, rfl⟩
      -- name the base entries once
      set B : List (String × Value) :=
        [("name", vstr (if name.isEmpty then
            ("Hysteria2-" ++ server.asString ++ ":" ++ toString port) else name.asString)),
         ("type", vstr "hysteria2"),
         ("server", vstr server.asString),
         ("port", vint port),
         ("password", vstr password.asString)] with hB
      have hBk : "skip-cert-verify" ∉ B.map Prod.fst := by simp [hB]
      have hBsk : ∀ v : String, "skip-cert-verify" ∉ (B ++ [("sni", vstr v)]).map Prod.fst := by
        intro v
        simp [hB]
      rcases hway with h1 | ⟨h1, i2, hi2, h2⟩
      · subst h1
        rcases hsniE with ⟨hs, -⟩ | ⟨v, t, hs⟩ <;>
          rcases halpnE with ha | ⟨va, ta, ha⟩
        · exact ⟨B, hBk, [], by simp [hysteria2Config, hi1, hs, ha, hB]⟩
        · exact ⟨B, hBk,
            [("alpn", vlist ((pySplit ',' va.toList).map (fun s => vstr s.asString)))],
            by simp [hysteria2Config, hi1, hs, ha, hB]⟩
        · exact ⟨B ++ [("sni", vstr v)], hBsk v, [],
            by simp [hysteria2Config, hi1, hs, ha, hB]⟩
        · exact ⟨B ++ [("sni", vstr v)], hBsk v,
            [("alpn", vlist ((pySplit ',' va.toList).map (fun s => vstr s.asString)))],
            by simp [hysteria2Config, hi1, hs, ha, hB]⟩
      · subst h2
        have hne1 : (i1 == "1") = false := by
          simp only [beq_eq_false_iff_ne, ne_eq]
          exact h1
        rcases hsniE with ⟨hs, -⟩ | ⟨v, t, hs⟩ <;>
          rcases halpnE with ha | ⟨va, ta, ha⟩
        · exact ⟨B, hBk, [], by simp [hysteria2Config, hi1, h1, hne1, hi2, hs, ha, hB]⟩
        · exact ⟨B, hBk,
            [("alpn", vlist ((pySplit ',' va.toList).map (fun s => vstr s.asString)))],
            by simp [hysteria2Config, hi1, h1, hne1, hi2, hs, ha, hB]⟩
        · exact ⟨B ++ [("sni", vstr v)], hBsk v, [],
            by simp [hysteria2Config, hi1, h1, hne1, hi2, hs, ha, hB]⟩
        · exact ⟨B ++ [("sni", vstr v)], hBsk v,
            [("alpn", vlist ((pySplit ',' va.toList).map (fun s => vstr s.asString)))],
            by simp [hysteria2Config, hi1, h1, hne1, hi2, hs, ha, hB]⟩
    obtain ⟨pre, hpre, tail, hd⟩ := hbase
    exact ⟨_, hd, key_skip pre tail hpre⟩

/-- Witness for the amended C4 at concrete query dicts. -/
theorem c4_witness :
    (∃ d, trojanConfig "N".toList "pw".toList "h".toList 443 [] = some d ∧
      getKey d "sni" = some (vstr "h".toList.asString)) ∧
    (∃ d, trojanConfig "N".toList "pw".toList "h".toList 443
        [("insecure", ["1"]), ("allowInsecure", ["1"])] = some d ∧
      getKey d "skip-cert-verify" = some (vbool ("1" == "1"))) ∧
    (∃ d, hysteria2Config "N".toList "pw".toList "h".toList 443 [] = some d ∧
      getKey d "sni" = none) ∧
    (∃ d, hysteria2Config "N".toList "pw".toList "h".toList 443 [("insecure", ["1"])] = some d ∧
      getKey d "skip-cert-verify" = some (vbool true)) :=
  ⟨c4_amended_sni_insecure_asymmetry.1 "N".toList "pw".toList "h".toList 443 []
     (by simp [qsWF]) (by decide) rfl,
   c4_amended_sni_insecure_asymmetry.2.1 "N".toList "pw".toList "h".toList 443
     [("insecure", ["1"]), ("allowInsecure", ["1"])] "1"
     (by intro p hp; fin_cases hp <;> simp) rfl,
   c4_amended_sni_insecure_asymmetry.2.2.1 "N".toList "pw".toList "h".toList 443 []
     (by simp [qsWF]) rfl,
   c4_amended_sni_insecure_asymmetry.2.2.2 "N".toList "pw".toList "h".toList 443
     [("insecure", ["1"])] (by intro p hp; fin_cases hp; simp) (Or.inl rfl)⟩

/-- Deduplication from any seen set is idempotent. -/
theorem dedupeGo_idem : ∀ (xs : List Value) (seen : List String),
    dedupeGo seen (dedupeGo seen xs) = dedupeGo seen xs
  | [], _ => rfl
  | p :: rest, seen => by
    by_cases ht : truthy p = true
    · by_cases hk : dedupeKey p ∈ seen
      · simp [dedupeGo, ht, hk, dedupeGo_idem rest seen]
      · simp [dedupeGo, ht, hk, dedupeGo_idem rest (dedupeKey p :: seen)]
    · simp [dedupeGo, ht, dedupeGo_idem rest seen]

/-- The dedup output is a sublist of its input (first-seen order is
preserved). -/
theorem dedupeGo_sublist : ∀ (xs : List Value) (seen : List String),
    (dedupeGo seen xs).Sublist xs
  | [], _ => List.Sublist.refl []
  | p :: rest, seen => by
    by_cases ht : truthy p = true
    · by_cases hk : dedupeKey p ∈ seen
      · simpa [dedupeGo, ht, hk] using (dedupeGo_sublist rest seen).cons p
      · simpa [dedupeGo, ht, hk] using (dedupeGo_sublist rest (dedupeKey p :: seen)).cons₂ p
    · simpa [dedupeGo, ht] using (dedupeGo_sublist rest seen).cons p

/-- C7 (confirmed): dedupe is idempotent, preserves first-seen order
(its output is a sublist of its input), and its identity key is built
from server, port and type only — two descriptors agreeing on those
three fields collapse to the first-seen one even when their names
differ. -/
theorem c7_dedupe_idempotent_ordered_keyed :
    (∀ xs : List Value, dedupe (dedupe xs) = dedupe xs) ∧
    (∀ xs : List Value, (dedupe xs).Sublist xs) ∧
    (∀ p q : Value, truthy p = true →
      getD p "server" (vstr "") = getD q "server" (vstr "") →
      getD p "port" (vstr "") = getD q "port" (vstr "") →
      getD p "type" (vstr "") = getD q "type" (vstr "") →
      getD p "name" (vstr "") ≠ getD q "name" (vstr "") →
      dedupe [p, q] = [p]) := by
  refine ⟨fun xs => dedupeGo_idem xs [], fun xs => dedupeGo_sublist xs [], ?_⟩
  intro p q ht hs hp hty _
  have hkey : dedupeKey q = dedupeKey p := by
    simp [dedupeKey, hs, hp, hty]
  by_cases htq : truthy q = true
  · simp [dedupe, dedupeGo, ht, htq, hkey]
  · simp [dedupe, dedupeGo, ht, htq]

/-- Witness for C7: two nodes on the same server, port and type but
with different names collapse to the first. -/
theorem c7_witness :
    dedupe (dedupe [vdict [("server", vstr "a")]]) = dedupe [vdict [("server", vstr "a")]] ∧
    (dedupe [vdict [("server", vstr "a")]]).Sublist [vdict [("server", vstr "a")]] ∧
    dedupe
      [vdict [("name", vstr "A"), ("server", vstr "h"), ("port", vint 443), ("type", vstr "ss")],
       vdict [("name", vstr "B"), ("server", vstr "h"), ("port", vint 443), ("type", vstr "ss")]] =
      [vdict [("name", vstr "A"), ("server", vstr "h"), ("port", vint 443), ("type", vstr "ss")]] :=
  ⟨c7_dedupe_idempotent_ordered_keyed.1 [vdict [("server", vstr "a")]],
   c7_dedupe_idempotent_ordered_keyed.2.1 [vdict [("server", vstr "a")]],
   c7_dedupe_idempotent_ordered_keyed.2.2
     (vdict [("name", vstr "A"), ("server", vstr "h"), ("port", vint 443), ("type", vstr "ss")])
     (vdict [("name", vstr "B"), ("server", vstr "h"), ("port", vint 443), ("type", vstr "ss")])
     rfl rfl rfl rfl
     (by intro h; simp [getD, getKey, lookupKey] at h)⟩

/-! ### Lemmas about the rule pipeline (pySplit, joinWith, ruleFix,
rulePass) -/

/-- join of a cons with a non-empty tail. -/
theorem joinWith_cons (sep : Char) (x : List Char) :
    ∀ xs : List (List Char), xs ≠ [] → joinWith sep (x :: xs) = x ++ sep :: joinWith sep xs
  | [], h => absurd rfl h
  | _ :: _, _ => rfl

/-- The split worker never returns an empty list. -/
theorem pySplitGo_ne_nil (sep : Char) : ∀ (l cur : List Char), pySplitGo sep l cur ≠ []
  | [], cur => by simp [pySplitGo]
  | c :: rest, cur => by
    by_cases hc : (c == sep) = true
    · simp [pySplitGo, hc]
    · simp only [pySplitGo, hc, Bool.false_eq_true, if_false]
      exact pySplitGo_ne_nil sep rest (c :: cur)

/-- Joining the split worker's output restores the text. -/
theorem joinWith_pySplitGo (sep : Char) :
    ∀ (l cur : List Char), joinWith sep (pySplitGo sep l cur) = cur.reverse ++ l
  | [], cur => by simp [pySplitGo, joinWith]
  | c :: rest, cur => by
    by_cases hc : (c == sep) = true
    · have hcs : c = sep := by simpa using hc
      rw [pySplitGo]
      simp only [hc, if_true]
      rw [joinWith_cons sep _ _ (pySplitGo_ne_nil sep rest []),
        joinWith_pySplitGo sep rest []]
      simp [hcs]
    · rw [pySplitGo]
      simp only [hc, Bool.false_eq_true, if_false]
      rw [joinWith_pySplitGo sep rest (c :: cur)]
      simp

/-- Joining a full split restores the text. -/
theorem joinWith_pySplit (sep : Char) (l : List Char) : joinWith sep (pySplit sep l) = l := by
  simpa using joinWith_pySplitGo sep l []

/-- No split chunk contains the separator. -/
theorem pySplitGo_no_sep (sep : Char) :
    ∀ (l cur : List Char), sep ∉ cur → ∀ x ∈ pySplitGo sep l cur, sep ∉ x
  | [], cur, hcur => by
    intro x hx
    simp only [pySplitGo, List.mem_singleton] at hx
    subst hx
    simpa using hcur
  | c :: rest, cur, hcur => by
    intro x hx
    by_cases hc : (c == sep) = true
    · simp only [pySplitGo, hc, if_true, List.mem_cons] at hx
      rcases hx with hx | hx
      · subst hx
        simpa using hcur
      · exact pySplitGo_no_sep sep rest [] (by simp) x hx
    · simp only [pySplitGo, hc, Bool.false_eq_true, if_false] at hx
      refine pySplitGo_no_sep sep rest (c :: cur) ?_ x hx
      simp only [List.mem_cons]
      rintro (h | h)
      · exact absurd h.symm (by simpa using hc)
      · exact hcur h

/-- No chunk of a full split contains the separator. -/
theorem pySplit_no_sep (sep : Char) (l : List Char) : ∀ x ∈ pySplit sep l, sep ∉ x :=
  pySplitGo_no_sep sep l [] (by simp)

/-- startswith over a comma-free head: the fixed pattern
'XYZ' ++ ',' matches 'h ++ , ++ z' exactly when h is the pattern. -/
theorem startsWith_pattern_comma :
    ∀ (p h z : List Char), ',' ∉ p → ',' ∉ h →
      (startsWithL (p ++ [',']) (h ++ ',' :: z) = true ↔ h = p)
  | [], [], z, _, _ => by simp [startsWithL]
  | [], c :: h, z, _, hh => by
    have : (',' == c) = false := by
      simp only [beq_eq_false_iff_ne, ne_eq]
      intro hc
      exact hh (hc ▸ List.mem_cons_self c h)
    simp [startsWithL, this]
  | a :: p, [], z, hp, _ => by
    have : (a == ',') = false := by
      simp only [beq_eq_false_iff_ne, ne_eq]
      intro hc
      exact hp (hc ▸ List.mem_cons_self a p)
    simp [startsWithL, this]
  | a :: p, c :: h, z, hp, hh => by
    have ih := startsWith_pattern_comma p h z (fun hm => hp (List.mem_cons_of_mem a hm))
      (fun hm => hh (List.mem_cons_of_mem c hm))
    have heq : startsWithL ((a :: p) ++ [',']) ((c :: h) ++ ',' :: z) =
        ((a == c) && startsWithL (p ++ [',']) (h ++ ',' :: z)) := rfl
    rw [heq, Bool.and_eq_true, beq_iff_eq, ih]
    constructor
    · rintro ⟨h1, h2⟩
      exact h2 ▸ h1 ▸ rfl
    · intro h1
      injection h1 with h1 h2
      exact ⟨h1.symm, h2⟩

/-- ruleFix never changes whether a rule is the catch-all (a rule
starting with 'MATCH,'): the rewrite only replaces the part after the
last comma. -/
theorem ruleFix_match_invariant (valid : List Value) (r : List Char) :
    startsWithL "MATCH,".toList (ruleFix valid r) = startsWithL "MATCH,".toList r := by
  unfold ruleFix
  split
  case isFalse => rfl
  case isTrue hc =>
    dsimp only
    split
    case isFalse => rfl
    case isTrue hlen =>
      split
      case isTrue => rfl
      case isFalse hmem =>
        -- r = h ++ ',' :: joinWith ',' t  and the rewrite shares the head h
        obtain ⟨h, t, hparts⟩ : ∃ h t, pySplit ',' r = h :: t := by
          cases hp : pySplit ',' r with
          | nil => exact absurd hp (by simpa [pySplit] using pySplitGo_ne_nil ',' r [])
          | cons h t => exact ⟨h, t, rfl⟩
        have htne : t ≠ [] := by
          intro ht
          rw [hparts, ht] at hlen
          simp at hlen
        have hr : r = h ++ ',' :: joinWith ',' t := by
          conv_lhs => rw [← joinWith_pySplit ',' r]
          rw [hparts, joinWith_cons ',' h t htne]
        have hhds : ',' ∉ h := pySplit_no_sep ',' r h (hparts ▸ List.mem_cons_self h t)
        have hdrop : (pySplit ',' r).dropLast = h :: t.dropLast := by
          rw [hparts]
          cases t with
          | nil => exact absurd rfl htne
          | cons a t => rfl
        rw [hdrop, hr]
        by_cases hdl : t.dropLast = []
        · rw [hdl]
          have : joinWith ',' [h] ++ ",节点选择".toList = h ++ ',' :: "节点选择".toList := rfl
          rw [this]
          rw [Bool.eq_iff_iff]
          constructor
          · intro hx
            exact (startsWith_pattern_comma "MATCH".toList h (joinWith ',' t) (by decide)
              hhds).mpr ((startsWith_pattern_comma "MATCH".toList h _ (by decide) hhds).mp hx)
          · intro hx
            exact (startsWith_pattern_comma "MATCH".toList h _ (by decide) hhds).mpr
              ((startsWith_pattern_comma "MATCH".toList h _ (by decide) hhds).mp hx)
        · rw [joinWith_cons ',' h t.dropLast hdl]
          have hassoc : (h ++ ',' :: joinWith ',' t.dropLast) ++ ",节点选择".toList =
              h ++ ',' :: (joinWith ',' t.dropLast ++ ",节点选择".toList) := by
            simp
          rw [hassoc, Bool.eq_iff_iff]
          constructor
          · intro hx
            exact (startsWith_pattern_comma "MATCH".toList h _ (by decide) hhds).mpr
              ((startsWith_pattern_comma "MATCH".toList h _ (by decide) hhds).mp hx)
          · intro hx
            exact (startsWith_pattern_comma "MATCH".toList h _ (by decide) hhds).mpr
              ((startsWith_pattern_comma "MATCH".toList h _ (by decide) hhds).mp hx)

/-- The seen set after a pass is the pass output plus the old seen
set. -/
theorem rulePass_seen_iff (p : List Char → Bool) :
    ∀ (l seen : List (List Char)) (x : List Char),
      (x ∈ (rulePass p l seen).1 ↔ x ∈ (rulePass p l seen).2 ∨ x ∈ seen)
  | [], seen, x => by simp [rulePass]
  | r :: rest, seen, x => by
    by_cases hpr : (p r && !seen.contains r) = true
    · simp only [rulePass, hpr, if_true]
      rw [rulePass_seen_iff p rest (r :: seen) x]
      simp only [List.mem_cons]
      tauto
    · simp only [rulePass, hpr, Bool.false_eq_true, if_false]
      exact rulePass_seen_iff p rest seen x

/-- The pass with the always-true predicate captures every input rule
into its output or its incoming seen set. -/
theorem rulePass_total_capture :
    ∀ (l seen : List (List Char)) (x : List Char), x ∈ l →
      x ∈ (rulePass (fun _ => true) l seen).2 ∨ x ∈ seen
  | [], _, _, hx => by simp at hx
  | r :: rest, seen, x, hx => by
    by_cases hpr : ((fun (_ : List Char) => true) r && !seen.contains r) = true
    · simp only [rulePass, hpr, if_true, List.mem_cons]
      rcases List.mem_cons.mp hx with hx | hx
      · exact Or.inl (Or.inl hx)
      · rcases rulePass_total_capture rest (r :: seen) x hx with h | h
        · exact Or.inl (Or.inr h)
        · rcases List.mem_cons.mp h with h | h
          · exact Or.inl (Or.inl h)
          · exact Or.inr h
    · simp only [rulePass, hpr, Bool.false_eq_true, if_false]
      rcases List.mem_cons.mp hx with hx | hx
      · subst hx
        right
        have : x ∈ seen := by
          simpa using hpr
        exact this
      · exact rulePass_total_capture rest seen x hx
/-- Every rule of the (non-empty) input list survives into the
deduplicated, reordered rule list. -/
theorem mem_load_acl4ssr_rules (rules : List (List Char)) (x : List Char)
    (hx : x ∈ (if rules.isEmpty then builtinRules else rules)) :
    x ∈ load_acl4ssr_rules rules := by
  unfold load_acl4ssr_rules
  set all := if rules.isEmpty then builtinRules else rules with hall
  set p1 := rulePass (fun r => hasSub ",DIRECT".toList r) all [] with hp1
  set p2 := rulePass (fun r => hasSub ",REJECT".toList r) all p1.1 with hp2
  set p3 := rulePass (fun _ => true) all p2.1 with hp3
  have hu : x ∈ p1.2 ++ p2.2 ++ p3.2 := by
    rcases rulePass_total_capture all p2.1 x hx with h | h
    · simp [h]
    · rw [hp2, rulePass_seen_iff] at h
      rcases h with h | h
      · simp [h]
      · rw [hp1, rulePass_seen_iff] at h
        rcases h with h | h
        · simp [h]
        · simp at h
  by_cases hm : startsWithL "MATCH,".toList x = true
  · have : x ∈ (p1.2 ++ p2.2 ++ p3.2).filter (fun r => startsWithL "MATCH,".toList r) :=
      List.mem_filter.mpr ⟨hu, hm⟩
    simp only [List.mem_append]
    exact Or.inr this
  · have hm' : (!startsWithL "MATCH,".toList x) = true := by
      cases hsw : startsWithL "MATCH,".toList x
      · rfl
      · exact absurd hsw hm
    have : x ∈ (p1.2 ++ p2.2 ++ p3.2).filter (fun r => !startsWithL "MATCH,".toList r) :=
      List.mem_filter.mpr ⟨hu, hm'⟩
    simp only [List.mem_append]
    exact Or.inl this

/-- getLast? commutes with map. -/
theorem getLast?_map_eq {α β : Type} (f : α → β) :
    ∀ l : List α, (l.map f).getLast? = (l.getLast?).map f
  | [] => rfl
  | [a] => rfl
  | a :: b :: l => by
    rw [List.map_cons, List.map_cons, List.getLast?_cons_cons, List.getLast?_cons_cons,
      ← List.map_cons]
    exact getLast?_map_eq f (b :: l)

/-- Cleaning commutes with nothing: it just never turns values null. -/
theorem isNullV_clean_config : ∀ v : Value, isNullV (clean_config v) = isNullV v := by
  intro v
  cases v <;> rfl

/-- Truthy values are not null. -/
theorem isNullV_eq_false_of_truthy {v : Value} (h : truthy v = true) : isNullV v = false := by
  cases v <;> simp_all [truthy, isNullV]

/-- A list of already-cleaned non-null values is untouched by the list
pass of the cleaner. -/
theorem cleanList_map_clean : ∀ l : List Value, (∀ x ∈ l, isNullV x = false) →
    cleanList (l.map clean_config) = l.map clean_config
  | [], _ => rfl
  | x :: l, h => by
    have hx : isNullV (clean_config x) = false := by
      rw [isNullV_clean_config]
      exact h x (by simp)
    simp [cleanList, hx, clean_config_idem x,
      cleanList_map_clean l (fun y hy => h y (by simp [hy]))]

/-- A list of strings is untouched by the list pass of the cleaner. -/
theorem cleanList_vstrs : ∀ l : List (List Char),
    cleanList (l.map (fun r => vstr r.asString)) = l.map (fun r => vstr r.asString)
  | [] => rfl
  | x :: l => by simp [cleanList, clean_config, isNullV, cleanList_vstrs l]

set_option maxHeartbeats 1000000 in
/-- The assembled document's proxies entry: the cleaned descriptors,
capped at 200, emitted unchanged. -/
theorem generate_proxies_key (ps : List Value) (rules : List (List Char))
    (hne : (((if ps.isEmpty then [testNode] else ps).filter (fun p => truthy p)).map
      clean_config) ≠ []) :
    getKey (generate_clash_config_with_comments ps rules) "proxies" =
      some (vlist ((((if ps.isEmpty then [testNode] else ps).filter
        (fun p => truthy p)).map clean_config).take 200)) := by
  set cleaned := ((if ps.isEmpty then [testNode] else ps).filter (fun p => truthy p)).map
    clean_config with hcl
  have h1 : cleanList (cleaned.take 200) = cleaned.take 200 := by
    rw [hcl, ← List.map_take]
    apply cleanList_map_clean
    intro x hx
    exact isNullV_eq_false_of_truthy (List.of_mem_filter (List.mem_of_mem_take hx))
  have h2 : (cleaned.take 200).isEmpty = false := by
    have hnn : cleaned.take 200 ≠ [] := by
      intro h
      rcases List.take_eq_nil_iff.mp h with h | h
      · exact absurd h (by decide)
      · exact hne h
    cases hc : cleaned.take 200 with
    | nil => exact absurd hc hnn
    | cons a l => rfl
  have hv : cleanVal (vlist (cleaned.take 200)) = some (vlist (cleaned.take 200)) := by
    simp [cleanVal, h1, h2]
  unfold generate_clash_config_with_comments
  simp only [getKey, clean_config, ← hcl]
  clear_value cleaned
  clear hcl hne h1 h2
  generalize hR : load_acl4ssr_rules rules = R
  exact lookupKey_cleanEntries_append_hit
    [("port", vint 7890),
     ("socks-port", vint 7891),
     ("mixed-port", vint 7893),
     ("allow-lan", vbool true),
     ("mode", vstr "Rule"),
     ("log-level", vstr "info"),
     ("external-controller", vstr "0.0.0.0:9090"),
     ("secret", vstr ""),
     ("dns", vdict
       [("enable", vbool true),
        ("ipv6", vbool false),
        ("listen", vstr "0.0.0.0:53"),
        ("default-nameserver", vlist [vstr "223.5.5.5", vstr "119.29.29.29"]),
        ("enhanced-mode", vstr "fake-ip"),
        ("fake-ip-range", vstr "198.18.0.1/16"),
        ("nameserver", vlist
          [vstr "https://doh.pub/dns-query", vstr "https://dns.alidns.com/dns-query"]),
        ("fallback", vlist
          [vstr "https://doh.dns.sb/dns-query", vstr "https://dns.cloudflare.com/dns-query"]),
        ("fallback-filter", vdict
          [("geoip", vbool true), ("ipcidr", vlist [vstr "240.0.0.0/4"])])])]
    [("proxy-groups", vlist
       [vdict [("name", vstr "节点选择"), ("type", vstr "select"),
               ("proxies", vlist [vstr "自动选择", vstr "DIRECT"])],
        vdict [("name", vstr "自动选择"), ("type", vstr "url-test"),
               ("url", vstr "http://www.gstatic.com/generate_204"),
               ("interval", vint 300), ("tolerance", vint 50),
               ("proxies", vlist ((cleaned.take 200).map (fun p => getD p "name" (vstr "节点"))))],
        vdict [("name", vstr "REJECT"), ("type", vstr "select"),
               ("proxies", vlist [vstr "REJECT"])],
        vdict [("name", vstr "DIRECT"), ("type", vstr "select"),
               ("proxies", vlist [vstr "DIRECT"])]]),
     ("rules", vlist ((R.map (ruleFix
       ([vstr "DIRECT", vstr "REJECT", vstr "节点选择", vstr "自动选择"] ++
         cleaned.map (fun p => getD p "name" (vstr ""))))).map
       (fun r => vstr r.asString)))]
    "proxies" (vlist (cleaned.take 200)) (by simp) hv

/-- The rule list can not be emptied by the dedup-and-reorder pass. -/
theorem load_acl4ssr_rules_ne_nil (rules : List (List Char)) :
    load_acl4ssr_rules rules ≠ [] := by
  have hall : (if rules.isEmpty then builtinRules else rules) ≠ [] := by
    by_cases h : rules.isEmpty = true
    · simp only [h, if_true]
      intro hb
      have : ("DOMAIN-SUFFIX,local,DIRECT".toList :
        List Char) ∈ builtinRules := by simp [builtinRules]
      rw [hb] at this
      simp at this
    · simp only [h, Bool.false_eq_true, if_false]
      intro hr
      exact h (by simp [hr])
  obtain ⟨x, hx⟩ := List.exists_mem_of_ne_nil _ hall
  intro hload
  have := mem_load_acl4ssr_rules rules x (by
    by_cases h : rules.isEmpty = true <;> simp only [h, if_true, Bool.false_eq_true,
      if_false] <;> simpa [h] using hx)
  rw [hload] at this
  simp at this

set_option maxHeartbeats 1000000 in
/-- The assembled document's rules entry: the deduplicated, reordered
rules after the target-group rewrite, as strings. -/
theorem generate_rules_key (ps : List Value) (rules : List (List Char)) :
    getKey (generate_clash_config_with_comments ps rules) "rules" =
      some (vlist (((load_acl4ssr_rules rules).map (ruleFix
        ([vstr "DIRECT", vstr "REJECT", vstr "节点选择", vstr "自动选择"] ++
          (((if ps.isEmpty then [testNode] else ps).filter (fun p => truthy p)).map
            clean_config).map (fun p => getD p "name" (vstr ""))))).map
        (fun r => vstr r.asString))) := by
  set cleaned := ((if ps.isEmpty then [testNode] else ps).filter (fun p => truthy p)).map
    clean_config with hcl
  set V := [vstr "DIRECT", vstr "REJECT", vstr "节点选择", vstr "自动选择"] ++
    cleaned.map (fun p => getD p "name" (vstr "")) with hV
  have hFne : (load_acl4ssr_rules rules).map (ruleFix V) ≠ [] := by
    intro h
    rw [List.map_eq_nil_iff] at h
    exact load_acl4ssr_rules_ne_nil rules h
  have hv : cleanVal (vlist (((load_acl4ssr_rules rules).map (ruleFix V)).map
        (fun r => vstr r.asString))) =
      some (vlist (((load_acl4ssr_rules rules).map (ruleFix V)).map
        (fun r => vstr r.asString))) := by
    have hm : (((load_acl4ssr_rules rules).map (ruleFix V)).map
        (fun r => vstr r.asString)).isEmpty = false := by
      cases hc : (load_acl4ssr_rules rules).map (ruleFix V) with
      | nil => exact absurd hc hFne
      | cons a l => rfl
    simp only [cleanVal]
    rw [cleanList_vstrs ((load_acl4ssr_rules rules).map (ruleFix V)), hm]
    simp
  unfold generate_clash_config_with_comments
  simp only [getKey, clean_config, ← hcl, ← hV]
  clear hcl hV hFne
  generalize hR : (load_acl4ssr_rules rules).map (ruleFix V) = R at hv ⊢
  exact lookupKey_cleanEntries_append_hit
    [("port", vint 7890),
     ("socks-port", vint 7891),
     ("mixed-port", vint 7893),
     ("allow-lan", vbool true),
     ("mode", vstr "Rule"),
     ("log-level", vstr "info"),
     ("external-controller", vstr "0.0.0.0:9090"),
     ("secret", vstr ""),
     ("dns", vdict
       [("enable", vbool true),
        ("ipv6", vbool false),
        ("listen", vstr "0.0.0.0:53"),
        ("default-nameserver", vlist [vstr "223.5.5.5", vstr "119.29.29.29"]),
        ("enhanced-mode", vstr "fake-ip"),
        ("fake-ip-range", vstr "198.18.0.1/16"),
        ("nameserver", vlist
          [vstr "https://doh.pub/dns-query", vstr "https://dns.alidns.com/dns-query"]),
        ("fallback", vlist
          [vstr "https://doh.dns.sb/dns-query", vstr "https://dns.cloudflare.com/dns-query"]),
        ("fallback-filter", vdict
          [("geoip", vbool true), ("ipcidr", vlist [vstr "240.0.0.0/4"])])]),
     ("proxies", vlist (cleaned.take 200)),
     ("proxy-groups", vlist
       [vdict [("name", vstr "节点选择"), ("type", vstr "select"),
               ("proxies", vlist [vstr "自动选择", vstr "DIRECT"])],
        vdict [("name", vstr "自动选择"), ("type", vstr "url-test"),
               ("url", vstr "http://www.gstatic.com/generate_204"),
               ("interval", vint 300), ("tolerance", vint 50),
               ("proxies", vlist ((cleaned.take 200).map (fun p => getD p "name" (vstr "节点"))))],
        vdict [("name", vstr "REJECT"), ("type", vstr "select"),
               ("proxies", vlist [vstr "REJECT"])],
        vdict [("name", vstr "DIRECT"), ("type", vstr "select"),
               ("proxies", vlist [vstr "DIRECT"])]])]
    [] "rules" (vlist (R.map (fun r => vstr r.asString))) (by simp) hv

/-- When the input contains a catch-all rule, the reordered rule list
ends with a catch-all rule. -/
theorem load_acl4ssr_rules_last_match (rules : List (List Char)) (r0 : List Char)
    (hr0 : r0 ∈ (if rules.isEmpty then builtinRules else rules))
    (hm : startsWithL "MATCH,".toList r0 = true) :
    ∃ lr, (load_acl4ssr_rules rules).getLast? = some lr ∧
      startsWithL "MATCH,".toList lr = true := by
  unfold load_acl4ssr_rules
  set all := if rules.isEmpty then builtinRules else rules with hall
  set p1 := rulePass (fun r => hasSub ",DIRECT".toList r) all [] with hp1
  set p2 := rulePass (fun r => hasSub ",REJECT".toList r) all p1.1 with hp2
  set p3 := rulePass (fun _ => true) all p2.1 with hp3
  have hu : r0 ∈ p1.2 ++ p2.2 ++ p3.2 := by
    rcases rulePass_total_capture all p2.1 r0 hr0 with h | h
    · simp [h]
    · rw [hp2, rulePass_seen_iff] at h
      rcases h with h | h
      · simp [h]
      · rw [hp1, rulePass_seen_iff] at h
        rcases h with h | h
        · simp [h]
        · simp at h
  set matchR := (p1.2 ++ p2.2 ++ p3.2).filter
    (fun r => startsWithL "MATCH,".toList r) with hmr
  have hr0m : r0 ∈ matchR := List.mem_filter.mpr ⟨hu, hm⟩
  have hne : matchR ≠ [] := List.ne_nil_of_mem hr0m
  refine ⟨matchR.getLast hne, ?_, ?_⟩
  · rw [List.getLast?_append_of_ne_nil _ hne]
    exact List.getLast?_eq_getLast_of_ne_nil hne
  · exact List.of_mem_filter (List.getLast_mem hne)

set_option maxRecDepth 100000 in
/-- Counterexample to C5: two descriptors sharing the name 'A' are
emitted with that very name twice — no '-2' suffix is appended to the
second occurrence, so the emitted document carries duplicate labels. -/
theorem c5_counterexample :
    getKey (generate_clash_config_with_comments
      [vdict [("name", vstr "A"), ("type", vstr "ss"), ("server", vstr "s1"), ("port", vint 1)],
       vdict [("name", vstr "A"), ("type", vstr "ss"), ("server", vstr "s2"), ("port", vint 2)]]
      ["MATCH,节点选择".toList]) "proxies" =
      some (vlist
        [vdict [("name", vstr "A"), ("type", vstr "ss"), ("server", vstr "s1"), ("port", vint 1)],
         vdict [("name", vstr "A"), ("type", vstr "ss"), ("server", vstr "s2"),
           ("port", vint 2)]]) :=
  rfl

/-- C5 amended (corrected): the assembler performs no name-collision
resolution: the emitted node list is exactly the cleaned descriptor
list capped at 200, each name emitted verbatim, so duplicate names
survive into the document. -/
theorem c5_amended_names_emitted_verbatim :
    ∀ (ps : List Value) (rules : List (List Char)),
      (((if ps.isEmpty then [testNode] else ps).filter (fun p => truthy p)).map
        clean_config) ≠ [] →
      getKey (generate_clash_config_with_comments ps rules) "proxies" =
        some (vlist ((((if ps.isEmpty then [testNode] else ps).filter
          (fun p => truthy p)).map clean_config).take 200)) :=
  generate_proxies_key

/-- Witness for the amended C5 at a concrete descriptor list. -/
theorem c5_witness :
    getKey (generate_clash_config_with_comments
        [vdict [("name", vstr "A"), ("port", vint 1)]] []) "proxies" =
      some (vlist (((([vdict [("name", vstr "A"), ("port", vint 1)]].filter
        (fun p => truthy p)).map clean_config)).take 200)) := by
  have h := c5_amended_names_emitted_verbatim
    [vdict [("name", vstr "A"), ("port", vint 1)]] [] (fun hh => nomatch hh)
  exact h

set_option maxRecDepth 100000 in
/-- Counterexample to C6: with an empty descriptor list and a rule
list containing no catch-all, the emitted rule list does not end with
a catch-all rule. -/
theorem c6_counterexample :
    getKey (generate_clash_config_with_comments [] ["DOMAIN-SUFFIX,example.com,DIRECT".toList])
        "rules" =
      some (vlist [vstr "DOMAIN-SUFFIX,example.com,DIRECT"]) ∧
    startsWithL "MATCH,".toList "DOMAIN-SUFFIX,example.com,DIRECT".toList = false :=
  ⟨rfl, rfl⟩

/-- C6 amended (corrected): on an empty descriptor list the assembler
does emit exactly one placeholder node; but the emitted rule list ends
with the catch-all only when the supplied rule set contains a MATCH
rule (as the built-in fallback does), not for an arbitrary rule list. -/
theorem c6_amended_placeholder_conditional_catchall :
    (∀ rules : List (List Char),
      getKey (generate_clash_config_with_comments [] rules) "proxies" =
        some (vlist [testNode])) ∧
    (∀ (ps : List Value) (rules : List (List Char)) (r0 : List Char),
      r0 ∈ rules → startsWithL "MATCH,".toList r0 = true →
      ∃ (rl : List Value) (s : List Char),
        getKey (generate_clash_config_with_comments ps rules) "rules" = some (vlist rl) ∧
        rl.getLast? = some (vstr s.asString) ∧
        startsWithL "MATCH,".toList s = true) := by
  constructor
  · intro rules
    have h := generate_proxies_key [] rules (fun hh => nomatch hh)
    exact h.trans (by rfl)
  · intro ps rules r0 hmem hm
    have hrne : rules ≠ [] := List.ne_nil_of_mem hmem
    have hr0 : r0 ∈ (if rules.isEmpty then builtinRules else rules) := by
      cases rules with
      | nil => exact absurd rfl hrne
      | cons a l => simpa using hmem
    obtain ⟨lr, hlast, hlrm⟩ := load_acl4ssr_rules_last_match rules r0 hr0 hm
    refine ⟨_, ruleFix
      ([vstr "DIRECT", vstr "REJECT", vstr "节点选择", vstr "自动选择"] ++
        (((if ps.isEmpty then [testNode] else ps).filter (fun p => truthy p)).map
          clean_config).map (fun p => getD p "name" (vstr ""))) lr,
      generate_rules_key ps rules, ?_, ?_⟩
    · rw [getLast?_map_eq, getLast?_map_eq, hlast]
      rfl
    · rw [ruleFix_match_invariant]
      exact hlrm

/-- Witness for the amended C2: concrete unsupported-scheme lines hit
the universal parts of the dispatch theorem. -/
theorem c2_witness :
    parse_proxy_url ("ssr://".toList ++ "abc".toList) = none ∧
    parse_proxy_url ("reality://".toList ++ "u@h:443".toList) = none :=
  ⟨c2_amended_five_scheme_dispatch.1 "abc".toList,
   c2_amended_five_scheme_dispatch.2.2.2.2.2.1 "u@h:443".toList⟩

/-- Witness for the amended C6: the placeholder node appears for a
rule list without a catch-all, and a MATCH rule in the input ends up
last. -/
theorem c6_witness :
    getKey (generate_clash_config_with_comments [] ["DOMAIN-SUFFIX,x.com,DIRECT".toList])
        "proxies" = some (vlist [testNode]) ∧
    (∃ (rl : List Value) (s : List Char),
      getKey (generate_clash_config_with_comments [] ["MATCH,节点选择".toList]) "rules" =
        some (vlist rl) ∧
      rl.getLast? = some (vstr s.asString) ∧
      startsWithL "MATCH,".toList s = true) :=
  ⟨c6_amended_placeholder_conditional_catchall.1 ["DOMAIN-SUFFIX,x.com,DIRECT".toList],
   c6_amended_placeholder_conditional_catchall.2 [] ["MATCH,节点选择".toList]
     "MATCH,节点选择".toList (List.mem_singleton.mpr rfl) (by decide)⟩

end Subgen

/-!
# Validation examples

Concrete evaluations of the embedded functions, checked against the
behaviour of the Python originals on the same inputs.
-/

open Subgen Subgen.Value in
example : clean_config (vdict [("a", vstr ""), ("b", vint 0), ("c", vnull),
    ("d", vdict [("x", vnull)]), ("e", vlist [vnull, vint 1])]) =
    vdict [("b", vint 0), ("e", vlist [vint 1])] := rfl

open Subgen Subgen.Value in
example : clean_config (clean_config (vdict [("a", vlist [vdict []])])) =
    vdict [("a", vlist [vdict []])] := by
  simp [clean_config, cleanEntries, cleanVal, cleanList, isNullV]

open Subgen in
example : safe_decode_base64 "YQ".toList = some "a".toList := by decide
open Subgen in
example : safe_decode_base64 "YQ==".toList = some "a".toList := by decide
open Subgen in
example : safe_decode_base64 "a-_b".toList = some "k".toList := by decide
open Subgen in
example : safe_decode_base64 "=YWJj".toList = some "abc".toList := by decide
open Subgen in
example : pyInt " +4_43 ".toList = some 443 := by decide
open Subgen in
example : pyInt "4__3".toList = none := by decide
open Subgen in
example : parse_qs "sni=example.com&insecure=1&x=&y&alpn=h3,h2".toList =
    [("sni", ["example.com"]), ("insecure", ["1"]), ("alpn", ["h3,h2"])] := by decide
open Subgen in
example : unquote "%E4%BD%A0%e5%a5%bd%zz%41é".toList = "你好%zzAé".toList := by decide

open Subgen Subgen.Value in
example : parse_ss "ss://YWVzLTI1Ni1nY206cGFzc3dvcmQ=@example.com:8443#MyNode".toList =
    some (vdict [("name", vstr "MyNode"), ("type", vstr "ss"),
      ("server", vstr "example.com"), ("port", vint 8443),
      ("cipher", vstr "aes-256-gcm"), ("password", vstr "password"),
      ("udp", vbool true)]) := rfl

open Subgen Subgen.Value in
example : parse_trojan "trojan://pw@h.example:443?insecure=1".toList =
    some (vdict [("name", vstr "Trojan-h.example:443"), ("type", vstr "trojan"),
      ("server", vstr "h.example"), ("port", vint 443), ("password", vstr "pw"),
      ("sni", vstr "h.example"), ("skip-cert-verify", vbool false),
      ("udp", vbool true)]) := rfl

open Subgen Subgen.Value in
example : parse_vless "vless://u-1@h:443?security=reality&pbk=KEY&sid=1#N".toList =
    some (vdict [("name", vstr "N"), ("type", vstr "vless"),
      ("server", vstr "h"), ("port", vint 443), ("uuid", vstr "u-1"),
      ("udp", vbool true), ("servername", vstr "h")]) := rfl

open Subgen Subgen.Value in
example : parse_hysteria2 "hysteria2://p@h:8443?sni=s.example&alpn=h3,h2&insecure=1".toList =
    some (vdict [("name", vstr "Hysteria2-h:8443"), ("type", vstr "hysteria2"),
      ("server", vstr "h"), ("port", vint 8443), ("password", vstr "/p"),
      ("sni", vstr "s.example"), ("skip-cert-verify", vbool true),
      ("alpn", vlist [vstr "h3", vstr "h2"])]) := rfl

set_option maxRecDepth 100000 in
open Subgen Subgen.Value in
example : parse_vmess ("vmess://eyJhZGQiOiIxLjIuMy40IiwicG9ydCI6IjQ0MyIsImlkIjoidS0xIiwiYWlkIjoiMCIsIm5ldCI6IndzIiwicGF0aCI6Ii94IiwiaG9zdCI6ImguZXhhbXBsZSIsInRscyI6InRscyJ9").toList =
    some (vdict [("name", vstr "VMess-1.2.3.4"), ("type", vstr "vmess"),
      ("server", vstr "1.2.3.4"), ("port", vint 443), ("uuid", vstr "u-1"),
      ("alterId", vint 0), ("cipher", vstr "auto"), ("udp", vbool true), ("tls", vbool true),
      ("skip-cert-verify", vbool false), ("servername", vstr "h.example"),
      ("network", vstr "ws"),
      ("ws-opts", vdict [("path", vstr "/x"),
        ("headers", vdict [("Host", vstr "h.example")])])]) := rfl
